import Mathlib

/-!
Shallow embedding of the ingestion pipeline of the financial-data-adapter
repository (src/adapter/normalizers.py, src/adapter/validators.py,
src/adapter/schemas.py, src/adapter/ingestion.py), together with theorems
settling the frozen claims about its specification.

Conventions of the embedding:
* Python values that can appear in a JSON payload (and the intermediate
  `Decimal` values the pipeline produces) are modelled by `Value`.
* Python `Decimal` is modelled by `Rat`; every decimal the pipeline builds is
  an integer scaled by a power of ten, and the arithmetic used on it
  (division by 100 / 10000, comparison, rounding) is exact on such values.
  The special values Infinity/NaN of the `decimal` module are outside the
  model; no claim exercises them.
* Fallible Python code is embedded in `Except String`: an `Except.error`
  models an uncaught Python exception propagating out of the function.
* Machine floats never appear: the source payloads under test are strings,
  ints, bools and nulls, which is what `Value` covers.
-/

deriving instance DecidableEq for Except

namespace FDA

/-- Value models a Python value flowing through the adapter: JSON payload
entries (null, bool, int, string) plus the `Decimal` values produced and
consumed by the normalizers. -/
inductive Value where
  | null
  | bool (b : Bool)
  | int (n : Int)
  | dec (q : Rat)
  | str (s : String)
deriving DecidableEq, Repr

/-- isSpaceChar recognizes the ASCII whitespace Python `str.strip`
removes. -/
def isSpaceChar (c : Char) : Bool :=
  c = ' ' ∨ c = '\t' ∨ c = '\n' ∨ c = '\r' ∨
    c = Char.ofNat 11 ∨ c = Char.ofNat 12

/-- stripChars models Python `str.strip()` on a character list. -/
def stripChars (cs : List Char) : List Char :=
  ((cs.dropWhile isSpaceChar).reverse.dropWhile isSpaceChar).reverse

/-- pyStrip models Python `str.strip()`. -/
def pyStrip (s : String) : String :=
  ⟨stripChars s.data⟩

/-- pyLower models Python `str.lower()` (ASCII letters; the payloads the
claims exercise contain no cased non-ASCII characters). -/
def pyLower (s : String) : String :=
  ⟨s.data.map Char.toLower⟩

/-- pyUpper models Python `str.upper()` (ASCII letters). -/
def pyUpper (s : String) : String :=
  ⟨s.data.map Char.toUpper⟩

/-- splitOnGo is the fuel-indexed worker of `splitOnChars`; the fuel is an
upper bound on the characters still to be consumed. -/
def splitOnGo (sep : List Char) : Nat → List Char → List Char →
    List (List Char)
  | 0, cs, acc => [acc.reverse ++ cs]
  | fuel + 1, cs, acc =>
      match cs with
      | [] => [acc.reverse]
      | c :: rest =>
          if sep.isPrefixOf cs then
            acc.reverse :: splitOnGo sep fuel (cs.drop sep.length) []
          else splitOnGo sep fuel rest (c :: acc)

/-- splitOnChars models Python `str.split(sep)` for a non-empty separator
(for the empty separator it returns the whole input, the convention of
`String.splitOn`). -/
def splitOnChars (cs sep : List Char) : List (List Char) :=
  if sep = [] then [cs] else splitOnGo sep (cs.length + 1) cs []

/-- replaceGo is the fuel-indexed worker of `replaceChars`. -/
def replaceGo (pat rep : List Char) : Nat → List Char → List Char
  | 0, cs => cs
  | fuel + 1, cs =>
      match cs with
      | [] => []
      | c :: rest =>
          if pat.isPrefixOf cs then
            rep ++ replaceGo pat rep fuel (cs.drop pat.length)
          else c :: replaceGo pat rep fuel rest

/-- replaceChars models Python `str.replace(pat, rep)` for a non-empty
pattern: non-overlapping left-to-right replacement. -/
def replaceChars (cs pat rep : List Char) : List Char :=
  if pat = [] then cs else replaceGo pat rep (cs.length + 1) cs

/-- joinWith concatenates pieces with a separator between them. -/
def joinWith (sep : List Char) : List (List Char) → List Char
  | [] => []
  | [x] => x
  | x :: xs => x ++ sep ++ joinWith sep xs

/-- digitsVal folds a list of decimal digit characters into a natural
number (most significant digit first). -/
def digitsVal (cs : List Char) : Nat :=
  cs.foldl (fun a c => a * 10 + (c.toNat - 48)) 0

/-- allDigits tests that every character is an ASCII decimal digit. -/
def allDigits (cs : List Char) : Bool :=
  cs.all (fun c => c.isDigit)

/-- countChar counts the occurrences of a character in a list. -/
def countChar (cs : List Char) (c : Char) : Nat :=
  (cs.filter (fun d => d = c)).length

/-- hasSub tests whether `pat` occurs as a substring (models Python
`pat in s` for a non-empty pattern). -/
def hasSub (cs pat : List Char) : Bool :=
  (splitOnChars cs pat).length > 1

/-- decValue is the rational value `sign * digits * 10 ^ scale` of a
parsed decimal literal. -/
def decValue (sign : Int) (digits : Nat) (scale : Int) : Rat :=
  if 0 ≤ scale then mkRat (sign * (digits : Int) * (10 : Int) ^ scale.toNat) 1
  else mkRat (sign * (digits : Int)) ((10 : Nat) ^ (-scale).toNat)

/-- parseMantissa parses the mantissa of a Python decimal numeric string:
digits with at most one point, at least one digit overall, giving the
digit value and the number of fractional digits. -/
def parseMantissa (m : List Char) : Option (Nat × Nat) :=
  match splitOnChars m ['.'] with
  | [i] =>
      if i.isEmpty || !(allDigits i) then none
      else some (digitsVal i, 0)
  | [i, f] =>
      if (i.isEmpty && f.isEmpty) || !(allDigits i) || !(allDigits f) then none
      else some (digitsVal (i ++ f), f.length)
  | _ => none

/-- parseExpPart parses the exponent digits of a decimal numeric string,
with an optional sign. -/
def parseExpPart (e : List Char) : Option Int :=
  match e with
  | [] => none
  | '+' :: rest =>
      if rest.isEmpty || !(allDigits rest) then none
      else some ((digitsVal rest : Nat) : Int)
  | '-' :: rest =>
      if rest.isEmpty || !(allDigits rest) then none
      else some (-((digitsVal rest : Nat) : Int))
  | cs =>
      if allDigits cs then some ((digitsVal cs : Nat) : Int) else none

/-- parsePyDecimalChars models Python `Decimal(s)` on finite numeric
strings: leading/trailing whitespace and underscores are discarded, then
an optional sign, a mantissa of digits with at most one point, and an
optional `e`/`E` exponent are parsed; anything else fails. The special
forms Infinity/NaN are outside the model. -/
def parsePyDecimalChars (cs0 : List Char) : Option Rat :=
  let t := (stripChars cs0).filter (fun c => c ≠ '_')
  let signBody : Int × List Char :=
    match t with
    | '-' :: rest => (-1, rest)
    | '+' :: rest => (1, rest)
    | _ => (1, t)
  let sign := signBody.1
  match splitOnChars (signBody.2.map Char.toLower) ['e'] with
  | [m] => (parseMantissa m).map (fun p => decValue sign p.1 (-(p.2 : Int)))
  | [m, e] => do
      let p ← parseMantissa m
      let ex ← parseExpPart e
      pure (decValue sign p.1 (ex - (p.2 : Int)))
  | _ => none

/-- parsePyDecimal is `parsePyDecimalChars` on a string. -/
def parsePyDecimal (s : String) : Option Rat :=
  parsePyDecimalChars s.data

/-- pow10Exp finds the least k ≤ 40 with `q.den ∣ 10 ^ k`, which exists for
every rational arising as a Python Decimal value. -/
def pow10Exp (q : Rat) : Option Nat :=
  (List.range 41).find? (fun k => (10 : Nat) ^ k % q.den = 0)

/-- decRepr is a canonical digit string for a decimal-valued rational,
modelling Python `str` on a `Decimal`. Only its non-emptiness is ever used
by the proofs below. -/
def decRepr (q : Rat) : String :=
  match pow10Exp q with
  | some 0 => toString q.num
  | some (k + 1) =>
      let n := (q.num * (10 : Int) ^ (k + 1) / (q.den : Int)).natAbs
      let s := toString n
      let s := if s.length ≤ k + 1 then
          String.mk (List.replicate (k + 2 - s.length) '0') ++ s
        else s
      (if q.num < 0 then "-" else "") ++
        ((s.toList.take (s.length - (k + 1))).asString ++ "." ++
          (s.toList.drop (s.length - (k + 1))).asString)
  | none => toString q

/-- pyStr models Python `str(value)` for the values of the model. -/
def pyStr : Value → String
  | .null => "None"
  | .bool b => if b then "True" else "False"
  | .int n => toString n
  | .dec q => decRepr q
  | .str s => s

/-- PyDate models a `datetime.date` value. -/
structure PyDate where
  year : Nat
  month : Nat
  day : Nat
deriving DecidableEq, Repr

/-- daysInMonth gives the number of days of a month in the proleptic
Gregorian calendar, as `datetime.date` validates. -/
def daysInMonth (y m : Nat) : Nat :=
  if m = 2 then
    if y % 4 = 0 ∧ (y % 100 ≠ 0 ∨ y % 400 = 0) then 29 else 28
  else if m ∈ [4, 6, 9, 11] then 30
  else 31

/-- mkValidDate builds a date after the range checks `datetime.strptime`
performs. -/
def mkValidDate (y m d : Nat) : Option PyDate :=
  if 1 ≤ y ∧ y ≤ 9999 ∧ 1 ≤ m ∧ m ≤ 12 ∧ 1 ≤ d ∧ d ≤ daysInMonth y m then
    some ⟨y, m, d⟩
  else none

/-- parseDigitsField parses a digit group of bounded width (models the
1-to-n digit matching of a strptime field). -/
def parseDigitsField (cs : List Char) (maxLen : Nat) : Option Nat :=
  if cs.isEmpty || cs.length > maxLen || !(allDigits cs) then none
  else some (digitsVal cs)

/-- parseDateSep parses a date string split by a literal separator into
year, month, day components in the given positional order
(`ymd = true` for year-month-day, `false` for day-month-year). -/
def parseDateSep (cs : List Char) (sep : Char) (ymd : Bool) : Option PyDate :=
  match splitOnChars cs [sep] with
  | [a, b, c] => do
      let y ← parseDigitsField (if ymd then a else c) 4
      let m ← parseDigitsField b 2
      let d ← parseDigitsField (if ymd then c else a) 2
      mkValidDate y m d
  | _ => none

/-- parseDateCompact parses the `%Y%m%d` shape: exactly eight digits. -/
def parseDateCompact (cs : List Char) : Option PyDate :=
  if cs.length = 8 ∧ allDigits cs then
    mkValidDate (digitsVal (cs.take 4)) (digitsVal ((cs.drop 4).take 2))
      (digitsVal (cs.drop 6))
  else none

/-- parseDateFormats tries the five fixed formats of `normalize_date` in
declared order, first match wins: `%Y%m%d`, `%Y-%m-%d`, `%d.%m.%Y`,
`%Y/%m/%d`, `%d/%m/%Y`. -/
def parseDateFormats (cs : List Char) : Option PyDate :=
  (parseDateCompact cs).orElse fun _ =>
  (parseDateSep cs '-' true).orElse fun _ =>
  (parseDateSep cs '.' false).orElse fun _ =>
  (parseDateSep cs '/' true).orElse fun _ =>
  parseDateSep cs '/' false

/-- normalize_date embeds `NormalizationService.normalize_date`. The
`datetime`/`date` passthrough branches of the source are unreachable for
JSON payloads and are not modelled. -/
def normalize_date (v : Value) : Option PyDate :=
  if v = .null ∨ v = .str "" then none
  else parseDateFormats (stripChars (pyStr v).data)

/-- normalize_decimal_chars embeds the string path of
`NormalizationService.normalize_decimal`: strip, remove spaces, replace
commas by points, treat all but the last point as digit-group separators,
then parse. -/
def normalize_decimal_chars (cs0 : List Char) : Option Rat :=
  let cs := stripChars cs0
  if cs = [] then none
  else
    let cs := cs.filter (fun c => c ≠ ' ')
    let cs := replaceChars cs [','] ['.']
    let cs :=
      if countChar cs '.' > 1 then
        let parts := splitOnChars cs ['.']
        joinWith [] parts.dropLast ++ '.' :: parts.getLastD []
      else cs
    parsePyDecimalChars cs

/-- normalize_decimal_str is `normalize_decimal_chars` on a string. -/
def normalize_decimal_str (s : String) : Option Rat :=
  normalize_decimal_chars s.data

/-- normalize_decimal embeds `NormalizationService.normalize_decimal`.
A bool argument reaches `Decimal(str(value))` (bool being an int subclass
in Python) and raises an uncaught InvalidOperation, modelled as
`Except.error`. -/
def normalize_decimal (v : Value) : Except String (Option Rat) :=
  match v with
  | .null => .ok none
  | .bool _ => .error "InvalidOperation"
  | .int n => .ok (some ((n : Rat)))
  | .dec q => .ok (some q)
  | .str s => .ok (normalize_decimal_str s)

/-- divPow10 is exact division of a decimal value by `10 ^ k`, the only
division `normalize_rate` performs. -/
def divPow10 (q : Rat) (k : Nat) : Rat :=
  mkRat q.num (q.den * (10 : Nat) ^ k)

/-- rateScale embeds the heuristic tail of `normalize_rate`: values above 1
are interpreted as basis points when at least 1000 and as percent
otherwise; values at most 1 pass through. -/
def rateScale (q : Rat) : Rat :=
  if 1 < q then (if 1000 ≤ q then divPow10 q 4 else divPow10 q 2) else q

/-- normalize_rate embeds `NormalizationService.normalize_rate`. A numeric
argument is converted by the source to its string form and reparsed, which
is the identity on its value, so the numeric cases are modelled directly;
a bool stringifies to "true"/"false", which fails to parse. -/
def normalize_rate (v : Value) : Option Rat :=
  match v with
  | .null => none
  | .bool _ => none
  | .int n => some (rateScale (mkRat n 1))
  | .dec q => some (rateScale q)
  | .str s =>
      if s = "" then none
      else
        let t := stripChars (s.data.map Char.toLower)
        if hasSub t ['b', 'p', 's'] then
          (normalize_decimal_chars
            (stripChars (replaceChars t ['b', 'p', 's'] []))).map
            (fun q => divPow10 q 4)
        else if hasSub t ['%'] then
          (normalize_decimal_chars (stripChars (replaceChars t ['%'] []))).map
            (fun q => divPow10 q 2)
        else (normalize_decimal_chars t).map rateScale

/-- roundHalfEven embeds `Decimal.to_integral_value` under the default
context rounding ROUND_HALF_EVEN, computed on the integer floor and
remainder. -/
def roundHalfEven (q : Rat) : Int :=
  let f := q.num.fdiv (q.den : Int)
  let r := q.num - f * (q.den : Int)
  if 2 * r < (q.den : Int) then f
  else if (q.den : Int) < 2 * r then f + 1
  else if f % 2 = 0 then f else f + 1

/-- normalize_int embeds `NormalizationService.normalize_int`: bools never
coerce, ints pass through, a Decimal roundtrips through its string form,
and a string gets only a comma-to-point replacement before `Decimal`
parsing followed by `to_integral_value` (half-even rounding); every
failure is caught and yields none. -/
def normalize_int (v : Value) : Option Int :=
  match v with
  | .null => none
  | .bool _ => none
  | .int n => some n
  | .dec q => some (roundHalfEven q)
  | .str s =>
      let t := stripChars s.data
      if t = [] then none
      else (parsePyDecimalChars (replaceChars t [','] ['.'])).map roundHalfEven

/-- normalize_string embeds `NormalizationService.normalize_string`. -/
def normalize_string (v : Value) : Option String :=
  match v with
  | .null => none
  | v =>
      let s := pyStrip (pyStr v)
      if s = "" then none else some s

/-- normalize_category embeds `NormalizationService.normalize_category`. -/
def normalize_category (v : Value) : String :=
  if v = .null ∨ v = .str "" then "UNKNOWN"
  else
    let s : String := ⟨stripChars ((pyStr v).data.map Char.toLower)⟩
    if s ∈ ["k", "kapalı", "kapali", "paid", "closed"] then "PAID"
    else if s ∈ ["a", "aktif", "active"] then "ACTIVE"
    else if s ∈ ["g", "gecikmiş", "gecikmis", "overdue", "delinquent"] then "OVERDUE"
    else "UNKNOWN"

/-- FieldSpec embeds `adapter.schemas.FieldSpec`; bounds are declared as
`Decimal | int | None` in the source and are modelled as rationals. -/
structure FieldSpec where
  name : String
  field_type : String
  required : Bool
  min_value : Option Rat
  max_value : Option Rat
deriving DecidableEq, Repr

/-- fs abbreviates a `FieldSpec` literal, in the order of the source
dataclass fields. -/
def fs (name ftype : String) (required : Bool) (minV maxV : Option Rat) :
    FieldSpec :=
  ⟨name, ftype, required, minV, maxV⟩

/-- CREDIT_FIELDS transcribes `adapter.schemas.CREDIT_FIELDS`. -/
def CREDIT_FIELDS : List FieldSpec := [
  fs "loan_account_number" "str" true none none,
  fs "customer_type" "category" false none none,
  fs "customer_id" "str" false none none,
  fs "loan_product_type" "str" false none none,
  fs "loan_status_code" "category" true none none,
  fs "loan_status_flag" "category" false none none,
  fs "days_past_due" "int" false (some 0) none,
  fs "final_maturity_date" "date" false none none,
  fs "total_installment_count" "int" false (some 0) none,
  fs "outstanding_installment_count" "int" false (some 0) none,
  fs "paid_installment_count" "int" false (some 0) none,
  fs "first_payment_date" "date" false none none,
  fs "original_loan_amount" "decimal" true (some 0) none,
  fs "outstanding_principal_balance" "decimal" false (some 0) none,
  fs "nominal_interest_rate" "rate" false (some 0) none,
  fs "total_interest_amount" "decimal" false (some 0) none,
  fs "kkdf_rate" "rate" false (some 0) none,
  fs "kkdf_amount" "decimal" false (some 0) none,
  fs "bsmv_rate" "rate" false (some 0) none,
  fs "bsmv_amount" "decimal" false (some 0) none,
  fs "grace_period_months" "int" false (some 0) none,
  fs "installment_frequency" "int" false (some 0) none,
  fs "loan_start_date" "date" true none none,
  fs "loan_closing_date" "date" false none none,
  fs "customer_region_code" "str" false none none,
  fs "sector_code" "str" false none none,
  fs "internal_credit_rating" "str" false none none,
  fs "default_probability" "rate" false (some 0) (some 1),
  fs "risk_class" "str" false none none,
  fs "customer_segment" "str" false none none,
  fs "internal_rating" "str" false none none,
  fs "external_rating" "str" false none none,
  fs "insurance_included" "category" false none none]

/-- PAYMENT_PLAN_FIELDS transcribes `adapter.schemas.PAYMENT_PLAN_FIELDS`. -/
def PAYMENT_PLAN_FIELDS : List FieldSpec := [
  fs "loan_account_number" "str" true none none,
  fs "installment_number" "int" true (some 0) none,
  fs "actual_payment_date" "date" false none none,
  fs "scheduled_payment_date" "date" true none none,
  fs "installment_amount" "decimal" true (some 0) none,
  fs "principal_component" "decimal" false (some 0) none,
  fs "interest_component" "decimal" false (some 0) none,
  fs "kkdf_component" "decimal" false (some 0) none,
  fs "bsmv_component" "decimal" false (some 0) none,
  fs "installment_status" "category" false none none,
  fs "remaining_principal" "decimal" false (some 0) none,
  fs "remaining_interest" "decimal" false (some 0) none,
  fs "remaining_kkdf" "decimal" false (some 0) none,
  fs "remaining_bsmv" "decimal" false (some 0) none]

/-- get_schema embeds `adapter.schemas.get_schema`: the unknown kind raises
a ValueError, modelled as `Except.error`. -/
def get_schema (dataset_type : String) : Except String (List FieldSpec) :=
  let d := pyUpper dataset_type
  if d = "CREDIT" then .ok CREDIT_FIELDS
  else if d = "PAYMENT_PLAN" then .ok PAYMENT_PLAN_FIELDS
  else .error "dataset_type must be CREDIT or PAYMENT_PLAN"

/-- Norm models a value stored in the normalized record: the typed results
of the normalizers, null, or (for an unknown field type) the raw value. -/
inductive Norm where
  | null
  | int (n : Int)
  | dec (q : Rat)
  | str (s : String)
  | date (d : PyDate)
  | raw (v : Value)
deriving DecidableEq, Repr

/-- VError embeds the error dict built by `adapter.validators.error`. -/
structure VError where
  code : String
  field : String
  message : String
deriving DecidableEq, Repr

namespace ErrorCodes

def INVALID_DECIMAL_FORMAT : String := "INVALID_DECIMAL_FORMAT"

def INVALID_RATE_FORMAT : String := "INVALID_RATE_FORMAT"

def INVALID_INT_FORMAT : String := "INVALID_INT_FORMAT"

def INVALID_DATE_FORMAT : String := "INVALID_DATE_FORMAT"

def INVALID_CATEGORY : String := "INVALID_CATEGORY"

def MISSING_FIELD : String := "MISSING_FIELD"

def OUT_OF_RANGE : String := "OUT_OF_RANGE"

def UNKNOWN_LOAN_ID : String := "UNKNOWN_LOAN_ID"

end ErrorCodes

/-- mkError embeds `adapter.validators.error`. -/
def mkError (code field message : String) : VError :=
  ⟨code, field, message⟩

/-- payloadGet models `payload.get(name)`: the value under the key, null
when absent. -/
def payloadGet (payload : List (String × Value)) (k : String) : Value :=
  match payload.find? (fun kv => kv.1 = k) with
  | some kv => kv.2
  | none => .null

/-- recGet models `normalized.get(name)` on the normalized record. Keys in
the record are unique for the fixed schemas, so first-match lookup agrees
with the Python dict. -/
def recGet (r : List (String × Norm)) (k : String) : Norm :=
  match r.find? (fun kv => kv.1 = k) with
  | some kv => kv.2
  | none => .null

/-- fieldValue embeds the per-type dispatch of `validate_and_normalize`:
the normalized value for one present, non-empty raw value, together with
the format errors it contributes. -/
def fieldValue (spec : FieldSpec) (raw : Value) :
    Except String (Norm × List VError) :=
  if spec.field_type = "str" then
    let v := normalize_string raw
    .ok (match v with | some s => Norm.str s | none => Norm.null,
      if v = none ∧ spec.required then
        [mkError ErrorCodes.MISSING_FIELD spec.name "Field is required."]
      else [])
  else if spec.field_type = "int" then
    let v := normalize_int raw
    .ok (match v with | some n => Norm.int n | none => Norm.null,
      if v = none then
        [mkError ErrorCodes.INVALID_INT_FORMAT spec.name
          ("Invalid integer: " ++ pyStr raw)]
      else [])
  else if spec.field_type = "decimal" then do
    let v ← normalize_decimal raw
    .ok (match v with | some q => Norm.dec q | none => Norm.null,
      if v = none then
        [mkError ErrorCodes.INVALID_DECIMAL_FORMAT spec.name
          ("Invalid decimal: " ++ pyStr raw)]
      else [])
  else if spec.field_type = "rate" then
    let v := normalize_rate raw
    .ok (match v with | some q => Norm.dec q | none => Norm.null,
      if v = none then
        [mkError ErrorCodes.INVALID_RATE_FORMAT spec.name
          ("Invalid rate: " ++ pyStr raw)]
      else [])
  else if spec.field_type = "date" then
    let v := normalize_date raw
    .ok (match v with | some d => Norm.date d | none => Norm.null,
      if v = none then
        [mkError ErrorCodes.INVALID_DATE_FORMAT spec.name
          ("Invalid date: " ++ pyStr raw)]
      else [])
  else if spec.field_type = "category" then
    let s := normalize_category raw
    .ok (Norm.str s,
      if spec.required ∧ s = "UNKNOWN" then
        [mkError ErrorCodes.INVALID_CATEGORY spec.name
          ("Unknown category: " ++ pyStr raw)]
      else [])
  else .ok (Norm.raw raw, [])

/-- numVal gives the numeric content of a normalized value for Python
comparison against a numeric bound; bools count as ints, everything
non-numeric has none (the comparison raises TypeError). -/
def numVal : Norm → Option Rat
  | .int n => some ((n : Rat))
  | .dec q => some q
  | .raw (.int n) => some ((n : Rat))
  | .raw (.dec q) => some q
  | .raw (.bool b) => some (if b then 1 else 0)
  | _ => none

/-- checkBounds embeds the min/max block of `validate_and_normalize`: run
only on non-null values, appending OUT_OF_RANGE errors; a comparison of a
non-numeric value with a numeric bound raises. -/
def checkBounds (spec : FieldSpec) (raw : Value) (v : Norm)
    (errs : List VError) : Except String (List VError) :=
  if v = Norm.null then .ok errs
  else do
    let errs1 ←
      match spec.min_value with
      | some b =>
          match numVal v with
          | some q =>
              pure (if q < b then
                errs ++ [mkError ErrorCodes.OUT_OF_RANGE spec.name
                  ("Value below minimum: " ++ pyStr raw)]
              else errs)
          | none => Except.error "TypeError"
      | none => pure errs
    match spec.max_value with
    | some b =>
        match numVal v with
        | some q =>
            pure (if b < q then
              errs1 ++ [mkError ErrorCodes.OUT_OF_RANGE spec.name
                ("Value above maximum: " ++ pyStr raw)]
            else errs1)
        | none => Except.error "TypeError"
    | none => pure errs1

/-- processField embeds one iteration of the schema loop of
`validate_and_normalize`: absent/empty handling, type dispatch, bounds. -/
def processField (payload : List (String × Value)) (spec : FieldSpec) :
    Except String (Norm × List VError) :=
  let raw := payloadGet payload spec.name
  if raw = .null ∨ raw = .str "" then
    .ok (Norm.null,
      if spec.required then
        [mkError ErrorCodes.MISSING_FIELD spec.name "Field is required."]
      else [])
  else do
    let (v, errs) ← fieldValue spec raw
    let errs2 ← checkBounds spec raw v errs
    .ok (v, errs2)

/-- validate_and_normalize embeds `adapter.validators.validate_and_normalize`:
the normalized record (all declared names present, in declared order) and
the collected errors. -/
def validate_and_normalize (payload : List (String × Value)) :
    List FieldSpec → Except String (List (String × Norm) × List VError)
  | [] => .ok ([], [])
  | spec :: rest => do
      let (v, es) ← processField payload spec
      let (recs, esr) ← validate_and_normalize payload rest
      .ok ((spec.name, v) :: recs, es ++ esr)

/-- normFalsy models Python truthiness (negated) of a normalized value. -/
def normFalsy : Norm → Bool
  | .null => true
  | .int n => n = 0
  | .dec q => q = 0
  | .str s => s = ""
  | .date _ => false
  | .raw .null => true
  | .raw (.bool b) => !b
  | .raw (.int n) => n = 0
  | .raw (.dec q) => q = 0
  | .raw (.str s) => s = ""

/-- is_payment_ref_valid embeds `IngestionService.is_payment_ref_valid`:
non-PAYMENT_PLAN datasets always pass; a falsy reference fails; otherwise
membership in the credit id set (string equality) decides. -/
def is_payment_ref_valid (dataset_type : String) (ext : Norm)
    (ids : Option (List String)) : Bool :=
  if dataset_type ≠ "PAYMENT_PLAN" then true
  else if normFalsy ext then false
  else
    match ext with
    | .str s => (ids.getD []).contains s
    | .raw (.str s) => (ids.getD []).contains s
    | _ => false

/-- BatchErrorRec embeds a persisted `api.models.BatchError` row. -/
structure BatchErrorRec where
  batch_id : String
  row_number : Nat
  error_code : String
  field_name : Option String
  message : String
  raw_excerpt : List (String × Value)
deriving DecidableEq, Repr

/-- rowErrorRecs converts the validator errors of one row into the
`BatchError` rows `validate_all_rows` accumulates. -/
def rowErrorRecs (batchId : String) (rowNum : Nat)
    (payload : List (String × Value)) (errs : List VError) :
    List BatchErrorRec :=
  errs.map (fun e => ⟨batchId, rowNum, e.code, some e.field, e.message, payload⟩)

/-- unknownLoanIdRec is the `BatchError` row emitted for a failed payment
reference check. -/
def unknownLoanIdRec (batchId : String) (rowNum : Nat)
    (payload : List (String × Value)) : BatchErrorRec :=
  ⟨batchId, rowNum, ErrorCodes.UNKNOWN_LOAN_ID, some "loan_account_number",
    "Payment plan references unknown loan_account_number.", payload⟩

/-- validateRowsFrom is the loop of `validate_all_rows` starting at a given
1-based row number: valid count, invalid count, accumulated errors. -/
def validateRowsFrom (schema : List FieldSpec) (dataset_type : String)
    (ids : Option (List String)) (batchId : String) (rowNum : Nat) :
    List (List (String × Value)) →
    Except String (Nat × Nat × List BatchErrorRec)
  | [] => .ok (0, 0, [])
  | payload :: rest => do
      let (normalized, rerrs) ← validate_and_normalize payload schema
      let (v, i, es) ←
        validateRowsFrom schema dataset_type ids batchId (rowNum + 1) rest
      if rerrs ≠ [] then
        .ok (v, i + 1, rowErrorRecs batchId rowNum payload rerrs ++ es)
      else if !(is_payment_ref_valid dataset_type
          (recGet normalized "loan_account_number") ids) then
        .ok (v, i + 1, unknownLoanIdRec batchId rowNum payload :: es)
      else
        .ok (v + 1, i, es)

/-- validate_all_rows embeds `IngestionService.validate_all_rows` over the
ordered source payloads. -/
def validate_all_rows (rows : List (List (String × Value)))
    (schema : List FieldSpec) (dataset_type : String)
    (ids : Option (List String)) (batchId : String) :
    Except String (Nat × Nat × List BatchErrorRec) :=
  validateRowsFrom schema dataset_type ids batchId 1 rows

/-- normPyStr models Python `str` on a normalized value. -/
def normPyStr : Norm → String
  | .null => "None"
  | .int n => toString n
  | .dec q => decRepr q
  | .str s => s
  | .date d =>
      toString d.year ++ "-" ++
        (if d.month < 10 then "0" else "") ++ toString d.month ++ "-" ++
        (if d.day < 10 then "0" else "") ++ toString d.day
  | .raw v => pyStr v

/-- LoanRow embeds a persisted `api.models.Loan` row. -/
structure LoanRow where
  tenant : String
  external_id : String
  loan_type : String
  amount : Rat
  interest_rate : Rat
  customer_name : String
  is_active : Bool
deriving DecidableEq, Repr

/-- PlanRow embeds a persisted `api.models.LoanPaymentPlan` row. -/
structure PlanRow where
  tenant : String
  loan_type : String
  loan_external_id : String
  installment_number : Option Int
  scheduled_payment_date : Option PyDate
  installment_amount : Option Rat
  payload : List (String × Value)
deriving DecidableEq, Repr

/-- decField models `normalized.get(k) or Decimal("0")` feeding a decimal
column: a falsy value yields the default, a numeric value passes through,
and a non-numeric truthy value cannot be stored (database error). -/
def decField (v : Norm) (d : Rat) : Except String Rat :=
  if normFalsy v then .ok d
  else
    match numVal v with
    | some q => .ok q
    | none => .error "cannot store value in decimal column"

/-- strField models `normalized.get(k) or default` feeding a character
column. -/
def strField (v : Norm) (d : String) : Except String String :=
  if normFalsy v then .ok d
  else
    match v with
    | .str s => .ok s
    | _ => .error "cannot store value in char column"

/-- creditLoanRow embeds the `Loan(...)` construction inside
`IngestionService.load_chunked` for a CREDIT row. -/
def creditLoanRow (tenant loan_type : String) (extId : Norm)
    (normalized : List (String × Norm)) : Except String LoanRow := do
  let amount ← decField (recGet normalized "original_loan_amount") 0
  let rate ← decField (recGet normalized "nominal_interest_rate") 0
  let cname ← strField (recGet normalized "customer_id") "Customer"
  .ok ⟨tenant, normPyStr extId, loan_type, amount, rate, cname,
    recGet normalized "loan_status_code" = Norm.str "ACTIVE"⟩

/-- normToInt extracts an int column value from a normalized slot. -/
def normToInt : Norm → Option Int
  | .int n => some n
  | _ => none

/-- normToDate extracts a date column value from a normalized slot. -/
def normToDate : Norm → Option PyDate
  | .date d => some d
  | _ => none

/-- normToDec extracts a decimal column value from a normalized slot. -/
def normToDec : Norm → Option Rat
  | .dec q => some q
  | .int n => some ((n : Rat))
  | _ => none

/-- planRowOf embeds the `LoanPaymentPlan(...)` construction inside
`IngestionService.load_chunked` for a PAYMENT_PLAN row. -/
def planRowOf (tenant loan_type : String) (extId : Norm)
    (normalized : List (String × Norm)) (payload : List (String × Value)) :
    PlanRow :=
  ⟨tenant, loan_type, normPyStr extId,
    normToInt (recGet normalized "installment_number"),
    normToDate (recGet normalized "scheduled_payment_date"),
    normToDec (recGet normalized "installment_amount"), payload⟩

/-- chRowOf embeds the analytical row built in `load_chunked`: the
normalized record plus the injected batch id and loan type, projected to
the staging column list. -/
def chRowOf (normalized : List (String × Norm)) (batchId loan_type : String)
    (cols : List String) : List (String × Norm) :=
  cols.map (fun c =>
    (c, if c = "batch_id" then Norm.str batchId
        else if c = "loan_type" then Norm.str loan_type
        else recGet normalized c))

/-- ChTable is one table of the analytical store: database, name, rows. -/
structure ChTable where
  db : String
  name : String
  rows : List (List (String × Norm))
deriving DecidableEq, Repr

/-- ChState is the analytical store: its databases and tables. -/
structure ChState where
  databases : List String
  tables : List ChTable
deriving DecidableEq, Repr

/-- hasTable models the ClickHouse `EXISTS TABLE` check. -/
def ChState.hasTable (st : ChState) (db name : String) : Bool :=
  st.tables.any (fun t => t.db = db ∧ t.name = name)

/-- dropIfExists models `DROP TABLE IF EXISTS`. -/
def ChState.dropIfExists (st : ChState) (db name : String) : ChState :=
  { st with tables := st.tables.filter (fun t => ¬(t.db = db ∧ t.name = name)) }

/-- createTable models `CREATE TABLE`, yielding an empty table. -/
def ChState.createTable (st : ChState) (db name : String) : ChState :=
  { st with tables := st.tables ++ [⟨db, name, []⟩] }

/-- createDatabaseIfAbsent models `CREATE DATABASE IF NOT EXISTS`. -/
def ChState.createDatabaseIfAbsent (st : ChState) (db : String) : ChState :=
  if st.databases.contains db then st
  else { st with databases := st.databases ++ [db] }

/-- insertRows models a bulk insert appending rows to a table. -/
def ChState.insertRows (st : ChState) (db name : String)
    (rows : List (List (String × Norm))) : ChState :=
  { st with tables := st.tables.map (fun t =>
      if t.db = db ∧ t.name = name then { t with rows := t.rows ++ rows }
      else t) }

/-- swapTables embeds `ClickHouseClient.swap_tables`: rename the staging
table onto an absent main table, otherwise atomically exchange the two
identities. -/
def ChState.swapTables (st : ChState) (db main staging : String) : ChState :=
  if st.hasTable db main then
    { st with tables := st.tables.map (fun t =>
        if t.db = db ∧ t.name = main then { t with name := staging }
        else if t.db = db ∧ t.name = staging then { t with name := main }
        else t) }
  else
    { st with tables := st.tables.map (fun t =>
        if t.db = db ∧ t.name = staging then { t with name := main } else t) }

/-- resolve_target_table embeds `IngestionService.resolve_target_table`. -/
def resolve_target_table (dataset_type loan_type : String) : String :=
  let d := pyUpper dataset_type
  let l := pyUpper loan_type
  let pre :=
    if d = "CREDIT" then "fact_loans_current" else "fact_payment_plan_current"
  let suf := if l = "RETAIL" then "retail" else "commercial"
  pre ++ "_" ++ suf

/-- stagingName embeds the staging-table naming of `init_clickhouse`: the
target table name suffixed with the first dash-separated segment of the
current batch id. -/
def stagingName (target batchId : String) : String :=
  target ++ "_staging_" ++
    String.mk ((splitOnChars batchId.data ['-']).headD [])

/-- ClientRec embeds an `api.models.Client` row. -/
structure ClientRec where
  tenant_code : String
deriving DecidableEq, Repr

/-- BatchRec embeds an `api.models.Batch` row; timestamps are ticks of the
model clock. -/
structure BatchRec where
  id : String
  tenant : String
  status : String
  loan_type : Option String
  record_count : Int
  total_rows : Int
  valid_rows : Int
  invalid_rows : Int
  started_at : Option Nat
  completed_at : Option Nat
  error_message : Option String
deriving DecidableEq, Repr

/-- Ev is a ghost trace event recording each persisted write of the batch
status or of `completed_at`, in program order. -/
inductive Ev where
  | statusWrite (batchId status : String)
  | completedWrite (batchId : String) (t : Nat)
deriving DecidableEq, Repr

/-- SourceLoan embeds an `external_bank.models.MockLoan` row. -/
structure SourceLoan where
  bank_code : String
  loan_type : String
  external_id : String
  payload : List (String × Value)
deriving DecidableEq, Repr

/-- SourcePlan embeds an `external_bank.models.MockLoanPaymentPlan` row. -/
structure SourcePlan where
  bank_code : String
  loan_type : String
  loan_external_id : String
  installment_number : Option Int
  payload : List (String × Value)
deriving DecidableEq, Repr

/-- World is the whole observable state a run touches: relational store,
analytical store, batch persistence, the external source (its lists held in
primary-key order, matching the `order_by("id")` of the source reads), a
deterministic id supply standing for `uuid4`, a clock, and the ghost
trace. -/
structure World where
  clients : List ClientRec
  batches : List BatchRec
  batch_errors : List BatchErrorRec
  pg_loans : List LoanRow
  pg_plans : List PlanRow
  ch : ChState
  source_loans : List SourceLoan
  source_plans : List SourcePlan
  idSupply : List String
  clock : Nat
  trace : List Ev
deriving DecidableEq, Repr

/-- saveBatch persists a batch record by id (update in place). -/
def World.saveBatch (w : World) (b : BatchRec) : World :=
  { w with batches := w.batches.map (fun x => if x.id = b.id then b else x) }

/-- findBatch loads a batch record by primary key. -/
def World.findBatch (w : World) (bid : String) : Option BatchRec :=
  w.batches.find? (fun b => b.id = bid)

/-- emit appends ghost trace events. -/
def World.emit (w : World) (es : List Ev) : World :=
  { w with trace := w.trace ++ es }

/-- normalize_inputs embeds `IngestionService.normalize_inputs`. -/
def normalize_inputs (tenant_id loan_type dataset_type : String) :
    Except String (String × String × String) :=
  let tid := pyUpper (pyStrip tenant_id)
  let lt := pyUpper (pyStrip loan_type)
  let dt := pyUpper (pyStrip (if dataset_type = "" then "CREDIT" else dataset_type))
  if tid = "" then .error "tenant_id is required"
  else if !(lt = "RETAIL" ∨ lt = "COMMERCIAL") then
    .error "loan_type must be RETAIL or COMMERCIAL"
  else if !(dt = "CREDIT" ∨ dt = "PAYMENT_PLAN") then
    .error "dataset_type must be CREDIT or PAYMENT_PLAN"
  else .ok (tid, lt, dt)

/-- initLoadBatch is the load-or-create half of `init_batch`: load the
batch by id (raising when absent, mirroring `Batch.objects.get`) or create
a fresh STARTED batch for the tenant (raising when the tenant is unknown,
mirroring `Client.objects.get` with `tenant_code__iexact`). -/
def initLoadBatch (w0 : World) (tenant_id loan_type : String) :
    Option String → Except String (World × BatchRec)
  | some bid =>
      if bid = "" then .error "invalid batch id"
      else
        match w0.findBatch bid with
        | some b => .ok (w0, b)
        | none => .error "Batch matching query does not exist."
  | none =>
      match w0.clients.find?
          (fun c => pyLower c.tenant_code = pyLower tenant_id) with
      | some c =>
          let bid := w0.idSupply.headD ("batch-" ++ toString w0.batches.length)
          let b : BatchRec :=
            ⟨bid, c.tenant_code, "STARTED", some loan_type, 0, 0, 0, 0,
              some w0.clock, none, none⟩
          .ok ({ w0 with
              batches := w0.batches ++ [b],
              idSupply := w0.idSupply.drop 1,
              clock := w0.clock + 1,
              trace := w0.trace ++ [Ev.statusWrite bid "STARTED"] }, b)
      | none => .error "Client matching query does not exist."

/-- setProcessing is the save half of `init_batch`: unconditionally set
the status to PROCESSING (first started_at write wins) and save. -/
def setProcessing (loan_type : String) (p : World × BatchRec) :
    World × BatchRec :=
  let w1 := p.1
  let b := p.2
  let startedWorld : Option Nat × World :=
    match b.started_at with
    | some t => (some t, w1)
    | none => (some w1.clock, { w1 with clock := w1.clock + 1 })
  let b2 := { b with
    status := "PROCESSING", started_at := startedWorld.1,
    loan_type := some loan_type }
  ((startedWorld.2.saveBatch b2).emit [Ev.statusWrite b2.id "PROCESSING"], b2)

/-- init_batch embeds `IngestionService.init_batch`: load or create the
batch, then unconditionally set it PROCESSING and save. -/
def init_batch (w0 : World) (tenant_id loan_type : String)
    (batch_id : Option String) : Except String (World × BatchRec) :=
  (initLoadBatch w0 tenant_id loan_type batch_id).map (setProcessing loan_type)

/-- get_source_queryset embeds `IngestionService.get_source_queryset`,
reduced to the ordered payload sequence the loop consumes. -/
def get_source_queryset (w : World) (bank_code loan_type dataset_type : String) :
    List (List (String × Value)) :=
  if dataset_type = "CREDIT" then
    (w.source_loans.filter
      (fun r => r.bank_code = bank_code ∧ r.loan_type = loan_type)).map
      (fun r => r.payload)
  else
    (w.source_plans.filter
      (fun r => r.bank_code = bank_code ∧ r.loan_type = loan_type)).map
      (fun r => r.payload)

/-- get_credit_id_set embeds `IngestionService.get_credit_id_set`. -/
def get_credit_id_set (w : World) (bank_code loan_type dataset_type : String) :
    Option (List String) :=
  if dataset_type ≠ "PAYMENT_PLAN" then none
  else some ((w.source_loans.filter
    (fun r => r.bank_code = bank_code ∧ r.loan_type = loan_type)).map
    (fun r => r.external_id))

/-- handle_validation_failure embeds
`IngestionService.handle_validation_failure`. -/
def handle_validation_failure (w : World) (b : BatchRec) (invalid : Nat)
    (errs : List BatchErrorRec) : World × Bool :=
  let w1 := { w with batch_errors := w.batch_errors ++ errs }
  let b2 := { b with
    status := "FAILED_VALIDATION",
    error_message := some ("Validation failed for " ++ toString invalid ++ " rows."),
    completed_at := some w1.clock }
  (((({ w1 with clock := w1.clock + 1 }).saveBatch b2).emit
    [Ev.statusWrite b2.id "FAILED_VALIDATION",
      Ev.completedWrite b2.id w1.clock]), false)

/-- finalize_batch_success embeds `IngestionService.finalize_batch_success`. -/
def finalize_batch_success (w : World) (b : BatchRec) (record_count : Nat) :
    World × Bool :=
  let b2 := { b with
    status := "SUCCESS", record_count := (record_count : Int),
    completed_at := some w.clock }
  (((({ w with clock := w.clock + 1 }).saveBatch b2).emit
    [Ev.statusWrite b2.id "SUCCESS", Ev.completedWrite b2.id w.clock]), true)

/-- ChCtx carries the outcome of `init_clickhouse`: the tenant database,
target and staging table names, and the staging column list. -/
structure ChCtx where
  db : String
  target : String
  staging : String
  cols : List String
deriving DecidableEq, Repr

/-- init_clickhouse embeds `IngestionService.init_clickhouse`: ensure the
tenant database, drop a staging table of the current run's own name if it
exists, and create it fresh. -/
def init_clickhouse (st : ChState) (ch_tenant_key dataset_type loan_type
    batchId : String) : Except String (ChState × ChCtx) := do
  let db := "dwh_" ++ pyLower ch_tenant_key
  let st1 := st.createDatabaseIfAbsent db
  let target := resolve_target_table dataset_type loan_type
  let staging := stagingName target batchId
  let schema ← get_schema dataset_type
  let cols := schema.map (fun s => s.name) ++ ["batch_id", "loan_type"]
  let st2 := (st1.dropIfExists db staging).createTable db staging
  .ok (st2, ⟨db, target, staging, cols⟩)

/-- loadRows is the row loop of `load_chunked`: re-validate each source
row, skip the (none, after a clean dry pass) invalid ones, and build the
relational and analytical buffers plus the loaded row count. The 2000-row
chunked flushing of the source only affects when buffers reach their
destinations, not the final contents, and is not modelled. -/
def loadRows (schema : List FieldSpec) (dataset_type : String)
    (ids : Option (List String)) (tenant loan_type batchId : String)
    (cols : List String) :
    List (List (String × Value)) →
    Except String (Nat × List LoanRow × List PlanRow ×
      List (List (String × Norm)))
  | [] => .ok (0, [], [], [])
  | payload :: rest => do
      let (normalized, rerrs) ← validate_and_normalize payload schema
      let (n, loans, plans, chrows) ←
        loadRows schema dataset_type ids tenant loan_type batchId cols rest
      if rerrs ≠ [] then .ok (n, loans, plans, chrows)
      else
        let extId := recGet normalized "loan_account_number"
        if !(is_payment_ref_valid dataset_type extId ids) then
          .ok (n, loans, plans, chrows)
        else do
          let chrow := chRowOf normalized batchId loan_type cols
          if dataset_type = "CREDIT" then do
            let loan ← creditLoanRow tenant loan_type extId normalized
            .ok (n + 1, loan :: loans, plans, chrow :: chrows)
          else
            .ok (n + 1, loans,
              planRowOf tenant loan_type extId normalized payload :: plans,
              chrow :: chrows)

/-- load_chunked embeds `IngestionService.load_chunked`: inside one
relational transaction, delete the destination rows of (tenant, loan type,
dataset kind) and bulk-insert the rebuilt rows; append the analytical rows
to the staging table. -/
def load_chunked (w : World) (rows : List (List (String × Value)))
    (schema : List FieldSpec) (dataset_type : String)
    (ids : Option (List String)) (tenant loan_type batchId : String)
    (ctx : ChCtx) : Except String (World × Nat) :=
  match loadRows schema dataset_type ids tenant loan_type batchId ctx.cols
      rows with
  | .error e => .error e
  | .ok (n, loans, plans, chrows) =>
      let w1 :=
        if dataset_type = "CREDIT" then
          { w with pg_loans :=
              (w.pg_loans.filter
                (fun r : LoanRow =>
                  ¬(r.tenant = tenant ∧ r.loan_type = loan_type))) ++ loans }
        else
          { w with pg_plans :=
              (w.pg_plans.filter
                (fun r : PlanRow =>
                  ¬(r.tenant = tenant ∧ r.loan_type = loan_type))) ++ plans }
      .ok ({ w1 with ch := w1.ch.insertRows ctx.db ctx.staging chrows }, n)

/-- finalizeZeroRows is the zero-total short-circuit of `run_ingestion`:
finalize SUCCESS with all counts zero and return true. -/
def finalizeZeroRows (w1 : World) (b1 : BatchRec) : World × Bool :=
  let b2 := { b1 with
    status := "SUCCESS", completed_at := some w1.clock,
    record_count := 0, valid_rows := 0, invalid_rows := 0 }
  ((({ w1 with clock := w1.clock + 1 }).saveBatch b2).emit
    [Ev.statusWrite b2.id "SUCCESS", Ev.completedWrite b2.id w1.clock], true)

/-- run_body is the body of the `try` block of
`IngestionService.run_ingestion`; an `Except.error` carries the world at
the moment of the raise for the handler. -/
def run_body (w0 : World) (b0 : BatchRec) (lt dt : String) :
    Except (String × World) (World × Bool) :=
  let bank_code := pyUpper b0.tenant
  let rows := get_source_queryset w0 bank_code lt dt
  let b1 := { b0 with total_rows := (rows.length : Int) }
  let w1 := w0.saveBatch b1
  if rows.length = 0 then .ok (finalizeZeroRows w1 b1)
  else
    match get_schema dt with
    | .error e => .error (e, w1)
    | .ok schema =>
        let ids := get_credit_id_set w1 bank_code lt dt
        match validate_all_rows rows schema dt ids b1.id with
        | .error e => .error (e, w1)
        | .ok (valid, invalid, errs) =>
            let b2 := { b1 with
              valid_rows := (valid : Int), invalid_rows := (invalid : Int) }
            let w2 := w1.saveBatch b2
            if invalid > 0 then
              .ok (handle_validation_failure w2 b2 invalid errs)
            else
              match init_clickhouse w2.ch (pyLower b0.tenant) dt lt b2.id with
              | .error e => .error (e, w2)
              | .ok (ch1, ctx) =>
                  let w3 := { w2 with ch := ch1 }
                  match load_chunked w3 rows schema dt ids b2.tenant lt
                      b2.id ctx with
                  | .error e => .error (e, w3)
                  | .ok (w4, record_count) =>
                      let ch2 :=
                        if w4.ch.hasTable ctx.db ctx.target then w4.ch
                        else w4.ch.createTable ctx.db ctx.target
                      let ch3 := ch2.swapTables ctx.db ctx.target ctx.staging
                      let ch4 := ch3.dropIfExists ctx.db ctx.staging
                      .ok (finalize_batch_success { w4 with ch := ch4 } b2
                        record_count)

/-- run_ingestion embeds `IngestionService.run_ingestion`: validate the
discriminators, resolve the batch and set it PROCESSING, then run the body;
an exception inside the body marks the batch FAILED and re-raises. -/
def run_ingestion (w0 : World) (tenant_id loan_type dataset_type : String)
    (batch_id : Option String) : Except (String × World) (World × Bool) :=
  match normalize_inputs tenant_id loan_type dataset_type with
  | .error e => .error (e, w0)
  | .ok (tid, lt, dt) =>
      match init_batch w0 tid lt batch_id with
      | .error e => .error (e, w0)
      | .ok (w1, b) =>
          match run_body w1 b lt dt with
          | .ok r => .ok r
          | .error (e, w2) =>
              let cur := (w2.findBatch b.id).getD b
              let b2 := { cur with
                status := "FAILED",
                error_message := some ("System Error: " ++ e),
                completed_at := some w2.clock }
              .error (e,
                ((({ w2 with clock := w2.clock + 1 }).saveBatch b2).emit
                  [Ev.statusWrite b2.id "FAILED",
                    Ev.completedWrite b2.id w2.clock]))

/-!
Theorems settling the claims.
-/

/-- divPow10 agrees with division by the corresponding power of ten. -/
theorem divPow10_eq (q : Rat) (k : Nat) : divPow10 q k = q / (10 : Rat) ^ k := by
  unfold divPow10
  rw [Rat.mkRat_eq_div]
  push_cast
  rw [div_mul_eq_div_div, Rat.num_div_den]

/-- rateScale is the identity at or below one. -/
theorem rateScale_of_le_one (q : Rat) (h : q ≤ 1) : rateScale q = q := by
  unfold rateScale
  rw [if_neg (not_lt.mpr h)]

/-- C9: the rate normalizer is idempotent on already-fractional numeric
inputs: for every decimal value x ≤ 1,
normalize_rate (normalize_rate x) = normalize_rate x. -/
theorem c9_rate_idempotent_on_fractional (q : Rat) (h : q ≤ 1) :
    (normalize_rate (Value.dec q)).bind (fun r => normalize_rate (Value.dec r)) =
      normalize_rate (Value.dec q) := by
  simp [normalize_rate, rateScale_of_le_one q h]

/-- C9 witness at x = 1/2. -/
theorem c9_witness :
    ((1 : Rat) / 2 ≤ 1) ∧
      ((normalize_rate (Value.dec (1 / 2))).bind
          (fun r => normalize_rate (Value.dec r)) =
        normalize_rate (Value.dec (1 / 2))) :=
  ⟨by norm_num, c9_rate_idempotent_on_fractional (1 / 2) (by norm_num)⟩

/-- C7: the rate normalizer divides by 10000 after stripping a "bps"
marker, by 100 after stripping a "%" marker, and otherwise scales the
parsed decimal by the magnitude heuristic: ≥1000 means basis points
(÷10000), strictly between 1 and 1000 means percent (÷100), ≤1 passes
through; concretely "12.5%" gives 0.125, "150bps" gives 0.015 and "1500"
gives 0.15. -/
theorem c7_rate_normalizer :
    normalize_rate (Value.str "12.5%") = some ((125 : Rat) / 1000) ∧
    normalize_rate (Value.str "150bps") = some ((15 : Rat) / 1000) ∧
    normalize_rate (Value.str "1500") = some ((15 : Rat) / 100) ∧
    (∀ s : String, s ≠ "" →
      hasSub (stripChars (s.data.map Char.toLower)) "bps".data = true →
      normalize_rate (Value.str s) =
        (normalize_decimal_chars
          (stripChars (replaceChars (stripChars (s.data.map Char.toLower))
            "bps".data []))).map (fun q => q / 10000)) ∧
    (∀ s : String, s ≠ "" →
      hasSub (stripChars (s.data.map Char.toLower)) "bps".data = false →
      hasSub (stripChars (s.data.map Char.toLower)) "%".data = true →
      normalize_rate (Value.str s) =
        (normalize_decimal_chars
          (stripChars (replaceChars (stripChars (s.data.map Char.toLower))
            "%".data []))).map (fun q => q / 100)) ∧
    (∀ q : Rat, 1000 ≤ q → rateScale q = q / 10000) ∧
    (∀ q : Rat, 1 < q → q < 1000 → rateScale q = q / 100) ∧
    (∀ q : Rat, q ≤ 1 → rateScale q = q) := by
  have e4 : ∀ o : Option Rat, o.map (fun q => divPow10 q 4) =
      o.map (fun q => q / 10000) := by
    intro o
    cases o with
    | none => rfl
    | some q => simp [divPow10_eq]; norm_num
  have e2 : ∀ o : Option Rat, o.map (fun q => divPow10 q 2) =
      o.map (fun q => q / 100) := by
    intro o
    cases o with
    | none => rfl
    | some q => simp [divPow10_eq]; norm_num
  refine ⟨?_, ?_, ?_, ?_, ?_, ?_, ?_, ?_⟩
  · have h : normalize_rate (Value.str "12.5%") = some (mkRat 125 1000) := by
      decide
    rw [h, Rat.mkRat_eq_div]
    norm_num
  · have h : normalize_rate (Value.str "150bps") = some (mkRat 15 1000) := by
      decide
    rw [h, Rat.mkRat_eq_div]
    norm_num
  · have h : normalize_rate (Value.str "1500") = some (mkRat 15 100) := by
      decide
    rw [h, Rat.mkRat_eq_div]
    norm_num
  · intro s hne hbps
    rw [show normalize_rate (Value.str s) =
        (normalize_decimal_chars
          (stripChars (replaceChars (stripChars (s.data.map Char.toLower))
            "bps".data []))).map (fun q => divPow10 q 4) by
      simp [normalize_rate, hne, hbps]]
    exact e4 _
  · intro s hne hbps hpct
    rw [show normalize_rate (Value.str s) =
        (normalize_decimal_chars
          (stripChars (replaceChars (stripChars (s.data.map Char.toLower))
            "%".data []))).map (fun q => divPow10 q 2) by
      simp [normalize_rate, hne, hbps, hpct]]
    exact e2 _
  · intro q hq
    unfold rateScale
    rw [if_pos (by linarith), if_pos hq, divPow10_eq]
    norm_num
  · intro q h1 h2
    unfold rateScale
    rw [if_pos h1, if_neg (not_le.mpr h2), divPow10_eq]
    norm_num
  · exact rateScale_of_le_one

/-- C7 witness instantiating the quantified clauses at concrete inputs. -/
theorem c7_witness :
    (normalize_rate (Value.str "150bps") =
      (normalize_decimal_chars
        (stripChars (replaceChars (stripChars ("150bps".data.map Char.toLower))
          "bps".data []))).map (fun q => q / 10000)) ∧
    (normalize_rate (Value.str "12.5%") =
      (normalize_decimal_chars
        (stripChars (replaceChars (stripChars ("12.5%".data.map Char.toLower))
          "%".data []))).map (fun q => q / 100)) ∧
    rateScale 2500 = 2500 / 10000 ∧
    rateScale 50 = 50 / 100 ∧
    rateScale (1 / 2) = 1 / 2 :=
  ⟨c7_rate_normalizer.2.2.2.1 "150bps" (by decide) (by decide),
    c7_rate_normalizer.2.2.2.2.1 "12.5%" (by decide) (by decide) (by decide),
    c7_rate_normalizer.2.2.2.2.2.1 2500 (by norm_num),
    c7_rate_normalizer.2.2.2.2.2.2.1 50 (by norm_num) (by norm_num),
    c7_rate_normalizer.2.2.2.2.2.2.2 (1 / 2) (by norm_num)⟩

/-- specIntOfString restates the claimed integer rule for comparison with
the code: parse via the decimal normalization rule, then truncate the
result toward zero. Modelled from the spec wording, not from the source. -/
def specIntOfString (s : String) : Option Int :=
  (normalize_decimal_str s).map (fun q => q.num / (q.den : Int))

/-- C4 counterexample: on "1.7" the integer normalizer rounds half-even
upward to 2 while the claimed truncation toward zero yields 1, and on
"1.234.56" the decimal rule parses 1234.56 while the integer normalizer
(which skips the digit-group handling) fails. -/
theorem c4_counterexample :
    normalize_int (Value.str "1.7") = some 2 ∧
    specIntOfString "1.7" = some 1 ∧
    normalize_int (Value.str "1.234.56") = none ∧
    specIntOfString "1.234.56" = some 1234 := by
  refine ⟨by decide, ?_, by decide, ?_⟩ <;> decide

/-- C4 amended: on string inputs the integer normalizer only replaces
commas by points (without the digit-group-separator and space handling of
the decimal rule) and rounds the parsed decimal half-to-even rather than
truncating toward zero; on strings without interior spaces and with at
most one separator — such as "10,0" — it therefore agrees with half-even
rounding of the decimal rule, and it yields null on failure instead of
raising. -/
theorem c4_amended_int_normalizer (s : String)
    (hsp : ' ' ∉ stripChars s.data)
    (hdot : countChar (replaceChars (stripChars s.data) [','] ['.']) '.' ≤ 1) :
    normalize_int (Value.str s) =
      (normalize_decimal_chars s.data).map roundHalfEven := by
  unfold normalize_int normalize_decimal_chars
  by_cases ht : stripChars s.data = []
  · simp [ht]
  · have hfilter :
        (stripChars s.data).filter (fun c => c ≠ ' ') = stripChars s.data := by
      apply List.filter_eq_self.mpr
      intro a ha
      exact decide_eq_true (fun h => hsp (h ▸ ha))
    simp only [if_neg ht, hfilter]
    rw [if_neg (by omega : ¬ countChar
      (replaceChars (stripChars s.data) [','] ['.']) '.' > 1)]

/-- C4 witness at the spec's example "10,0". -/
theorem c4_witness :
    (' ' ∉ stripChars "10,0".data) ∧
    countChar (replaceChars (stripChars "10,0".data) [','] ['.']) '.' ≤ 1 ∧
    normalize_int (Value.str "10,0") =
      (normalize_decimal_chars "10,0".data).map roundHalfEven :=
  ⟨by decide, by decide,
    c4_amended_int_normalizer "10,0" (by decide) (by decide)⟩

/-- C10: loading a valid CREDIT row coerces null optional fields to
defaults instead of storing nulls: a null nominal_interest_rate becomes
interest_rate 0, a null original_loan_amount would become amount 0, a null
customer_id becomes customer_name "Customer", and is_active holds exactly
when the normalized loan_status_code is "ACTIVE". -/
theorem c10_credit_row_defaults (tenant lt : String) (extId : Norm)
    (normalized : List (String × Norm)) (row : LoanRow)
    (hok : creditLoanRow tenant lt extId normalized = .ok row) :
    (recGet normalized "nominal_interest_rate" = Norm.null →
      row.interest_rate = 0) ∧
    (recGet normalized "original_loan_amount" = Norm.null → row.amount = 0) ∧
    (recGet normalized "customer_id" = Norm.null →
      row.customer_name = "Customer") ∧
    (row.is_active = true ↔
      recGet normalized "loan_status_code" = Norm.str "ACTIVE") := by
  revert hok
  unfold creditLoanRow
  cases h1 : decField (recGet normalized "original_loan_amount") 0 with
  | error e => intro hok; simp [Bind.bind, Except.bind] at hok
  | ok amount =>
    cases h2 : decField (recGet normalized "nominal_interest_rate") 0 with
    | error e => intro hok; simp [Bind.bind, Except.bind] at hok
    | ok rate =>
      cases h3 : strField (recGet normalized "customer_id") "Customer" with
      | error e => intro hok; simp [Bind.bind, Except.bind] at hok
      | ok cname =>
        intro hok
        simp only [Bind.bind, Except.bind, Except.ok.injEq] at hok
        subst hok
        refine ⟨?_, ?_, ?_, ?_⟩
        · intro hnull
          rw [hnull] at h2
          simp only [decField, normFalsy, if_pos, Except.ok.injEq] at h2
          subst h2
          rfl
        · intro hnull
          rw [hnull] at h1
          simp only [decField, normFalsy, if_pos, Except.ok.injEq] at h1
          subst h1
          rfl
        · intro hnull
          rw [hnull] at h3
          simp only [strField, normFalsy, if_pos, Except.ok.injEq] at h3
          subst h3
          rfl
        · simp

/-- C10 witness on a concrete normalized record with null optional
fields. -/
theorem c10_witness :
    creditLoanRow "BANK001" "RETAIL" (Norm.str "L1")
        [("loan_account_number", Norm.str "L1"),
         ("customer_id", Norm.null),
         ("loan_status_code", Norm.str "ACTIVE"),
         ("original_loan_amount", Norm.dec 1000),
         ("nominal_interest_rate", Norm.null)] =
      .ok ⟨"BANK001", "L1", "RETAIL", 1000, 0, "Customer", true⟩ ∧
    ((⟨"BANK001", "L1", "RETAIL", 1000, 0, "Customer", true⟩ :
        LoanRow).interest_rate = 0 ∧
      (⟨"BANK001", "L1", "RETAIL", 1000, 0, "Customer", true⟩ :
        LoanRow).customer_name = "Customer" ∧
      ((⟨"BANK001", "L1", "RETAIL", 1000, 0, "Customer", true⟩ :
        LoanRow).is_active = true ↔
        recGet [("loan_account_number", Norm.str "L1"),
         ("customer_id", Norm.null),
         ("loan_status_code", Norm.str "ACTIVE"),
         ("original_loan_amount", Norm.dec 1000),
         ("nominal_interest_rate", Norm.null)] "loan_status_code" =
          Norm.str "ACTIVE")) := by
  have h := c10_credit_row_defaults "BANK001" "RETAIL" (Norm.str "L1")
    [("loan_account_number", Norm.str "L1"),
     ("customer_id", Norm.null),
     ("loan_status_code", Norm.str "ACTIVE"),
     ("original_loan_amount", Norm.dec 1000),
     ("nominal_interest_rate", Norm.null)]
    ⟨"BANK001", "L1", "RETAIL", 1000, 0, "Customer", true⟩ (by decide)
  exact ⟨by decide, h.1 (by decide), h.2.2.1 (by decide), h.2.2.2⟩

/-- isFormatCode recognizes the four type-specific format error codes. -/
def isFormatCode (c : String) : Bool :=
  c = ErrorCodes.INVALID_INT_FORMAT ∨ c = ErrorCodes.INVALID_DECIMAL_FORMAT ∨
    c = ErrorCodes.INVALID_RATE_FORMAT ∨ c = ErrorCodes.INVALID_DATE_FORMAT

/-- hasBothOnField states that one field name carries both a format error
and an OUT_OF_RANGE error in an error list. -/
def hasBothOnField (errs : List VError) (f : String) : Prop :=
  (∃ e ∈ errs, e.field = f ∧ isFormatCode e.code = true) ∧
    (∃ e ∈ errs, e.field = f ∧ e.code = ErrorCodes.OUT_OF_RANGE)

/-- fieldValue only emits errors attributed to its own field. -/
theorem fieldValue_field (spec : FieldSpec) (raw : Value) (v : Norm)
    (errs : List VError) (hok : fieldValue spec raw = .ok (v, errs)) :
    ∀ e ∈ errs, e.field = spec.name := by
  unfold fieldValue at hok
  split_ifs at hok <;>
  first
  | (simp only [Except.ok.injEq, Prod.mk.injEq] at hok
     obtain ⟨-, he⟩ := hok
     subst he
     first
     | (split <;> simp [mkError])
     | simp [mkError])
  | (cases hnd : normalize_decimal raw with
     | error er =>
         rw [hnd] at hok
         simp [Bind.bind, Except.bind] at hok
     | ok d =>
         rw [hnd] at hok
         simp only [Bind.bind, Except.bind, Except.ok.injEq, Prod.mk.injEq]
           at hok
         obtain ⟨-, he⟩ := hok
         subst he
         split <;> simp [mkError])

/-- checkBounds returns its input errors extended by OUT_OF_RANGE errors
for its own field, never removing anything. -/
theorem checkBounds_shape (spec : FieldSpec) (raw : Value) (v : Norm)
    (errs errs2 : List VError)
    (hok : checkBounds spec raw v errs = .ok errs2) :
    ∃ tail, errs2 = errs ++ tail ∧
      ∀ e ∈ tail, e.code = ErrorCodes.OUT_OF_RANGE ∧ e.field = spec.name := by
  unfold checkBounds at hok
  by_cases hv : v = Norm.null
  · rw [if_pos hv] at hok
    simp only [Except.ok.injEq] at hok
    exact ⟨[], by simp [hok.symm]⟩
  · rw [if_neg hv] at hok
    cases hmin : spec.min_value with
    | none =>
        rw [hmin] at hok
        simp only [Bind.bind, Except.bind, pure, Except.pure] at hok
        cases hmax : spec.max_value with
        | none =>
            rw [hmax] at hok
            simp only [pure, Except.pure, Except.ok.injEq] at hok
            exact ⟨[], by simp [hok.symm]⟩
        | some b =>
            rw [hmax] at hok
            cases hnv : numVal v with
            | none => rw [hnv] at hok; simp at hok
            | some q =>
                rw [hnv] at hok
                simp only [pure, Except.pure, Except.ok.injEq] at hok
                by_cases hlt : b < q
                · rw [if_pos hlt] at hok
                  exact ⟨_, hok.symm, by simp [mkError]⟩
                · rw [if_neg hlt] at hok
                  exact ⟨[], by simp [hok.symm]⟩
    | some b =>
        rw [hmin] at hok
        cases hnv : numVal v with
        | none => rw [hnv] at hok; simp [Bind.bind, Except.bind] at hok
        | some q =>
            rw [hnv] at hok
            simp only [Bind.bind, Except.bind, pure, Except.pure] at hok
            by_cases hlt : q < b
            · rw [if_pos hlt] at hok
              cases hmax : spec.max_value with
              | none =>
                  rw [hmax] at hok
                  simp only [pure, Except.pure, Except.ok.injEq] at hok
                  exact ⟨_, hok.symm, by simp [mkError]⟩
              | some b2 =>
                  rw [hmax] at hok
                  simp only [pure, Except.pure, Except.ok.injEq] at hok
                  by_cases hgt : b2 < q
                  · rw [if_pos hgt] at hok
                    refine ⟨[mkError ErrorCodes.OUT_OF_RANGE spec.name
                        ("Value below minimum: " ++ pyStr raw),
                      mkError ErrorCodes.OUT_OF_RANGE spec.name
                        ("Value above maximum: " ++ pyStr raw)], ?_, ?_⟩
                    · rw [← hok]
                      simp
                    · intro e he
                      simp at he
                      rcases he with he | he <;> simp [he, mkError]
                  · rw [if_neg hgt] at hok
                    exact ⟨_, hok.symm, by simp [mkError]⟩
            · rw [if_neg hlt] at hok
              cases hmax : spec.max_value with
              | none =>
                  rw [hmax] at hok
                  simp only [pure, Except.pure, Except.ok.injEq] at hok
                  exact ⟨[], by simp [hok.symm]⟩
              | some b2 =>
                  rw [hmax] at hok
                  simp only [pure, Except.pure, Except.ok.injEq] at hok
                  by_cases hgt : b2 < q
                  · rw [if_pos hgt] at hok
                    exact ⟨_, hok.symm, by simp [mkError]⟩
                  · rw [if_neg hgt] at hok
                    exact ⟨[], by simp [hok.symm]⟩

/-- fieldValue produces at most one error, on its own field; a format
error forces the normalized value to null. -/
theorem fieldValue_cases (spec : FieldSpec) (raw : Value) (v : Norm)
    (errs : List VError) (hok : fieldValue spec raw = .ok (v, errs)) :
    errs = [] ∨ ∃ code msg, errs = [mkError code spec.name msg] ∧
      (isFormatCode code = true → v = Norm.null) ∧
      code ≠ ErrorCodes.UNKNOWN_LOAN_ID := by
  unfold fieldValue at hok
  by_cases h1 : spec.field_type = "str"
  · rw [if_pos h1] at hok
    simp only [Except.ok.injEq, Prod.mk.injEq] at hok
    obtain ⟨hv, he⟩ := hok
    by_cases hc : normalize_string raw = none ∧ spec.required
    · rw [if_pos hc] at he
      exact Or.inr ⟨_, _, he.symm, fun hf => absurd hf (by decide), by decide⟩
    · rw [if_neg hc] at he
      exact Or.inl he.symm
  · rw [if_neg h1] at hok
    by_cases h2 : spec.field_type = "int"
    · rw [if_pos h2] at hok
      simp only [Except.ok.injEq, Prod.mk.injEq] at hok
      obtain ⟨hv, he⟩ := hok
      by_cases hc : normalize_int raw = none
      · rw [if_pos hc] at he
        rw [hc] at hv
        exact Or.inr ⟨_, _, he.symm, fun _ => hv.symm, by decide⟩
      · rw [if_neg hc] at he
        exact Or.inl he.symm
    · rw [if_neg h2] at hok
      by_cases h3 : spec.field_type = "decimal"
      · rw [if_pos h3] at hok
        cases hnd : normalize_decimal raw with
        | error er =>
            rw [hnd] at hok
            simp [Bind.bind, Except.bind] at hok
        | ok d =>
            rw [hnd] at hok
            simp only [Bind.bind, Except.bind, Except.ok.injEq,
              Prod.mk.injEq] at hok
            obtain ⟨hv, he⟩ := hok
            by_cases hc : d = none
            · rw [if_pos hc] at he
              rw [hc] at hv
              exact Or.inr ⟨_, _, he.symm, fun _ => hv.symm, by decide⟩
            · rw [if_neg hc] at he
              exact Or.inl he.symm
      · rw [if_neg h3] at hok
        by_cases h4 : spec.field_type = "rate"
        · rw [if_pos h4] at hok
          simp only [Except.ok.injEq, Prod.mk.injEq] at hok
          obtain ⟨hv, he⟩ := hok
          by_cases hc : normalize_rate raw = none
          · rw [if_pos hc] at he
            rw [hc] at hv
            exact Or.inr ⟨_, _, he.symm, fun _ => hv.symm, by decide⟩
          · rw [if_neg hc] at he
            exact Or.inl he.symm
        · rw [if_neg h4] at hok
          by_cases h5 : spec.field_type = "date"
          · rw [if_pos h5] at hok
            simp only [Except.ok.injEq, Prod.mk.injEq] at hok
            obtain ⟨hv, he⟩ := hok
            by_cases hc : normalize_date raw = none
            · rw [if_pos hc] at he
              rw [hc] at hv
              exact Or.inr ⟨_, _, he.symm, fun _ => hv.symm, by decide⟩
            · rw [if_neg hc] at he
              exact Or.inl he.symm
          · rw [if_neg h5] at hok
            by_cases h6 : spec.field_type = "category"
            · rw [if_pos h6] at hok
              simp only [Except.ok.injEq, Prod.mk.injEq] at hok
              obtain ⟨hv, he⟩ := hok
              by_cases hc : spec.required ∧ normalize_category raw = "UNKNOWN"
              · rw [if_pos hc] at he
                exact Or.inr ⟨_, _, he.symm, fun hf => absurd hf (by decide), by decide⟩
              · rw [if_neg hc] at he
                exact Or.inl he.symm
            · rw [if_neg h6] at hok
              simp only [Except.ok.injEq, Prod.mk.injEq] at hok
              exact Or.inl hok.2.symm

/-- checkBounds computes the appended OUT_OF_RANGE errors exactly, for a
non-null numeric value. -/
theorem checkBounds_eq (spec : FieldSpec) (raw : Value) (v : Norm)
    (errs : List VError) (q : Rat) (hv : v ≠ Norm.null)
    (hnv : numVal v = some q) :
    checkBounds spec raw v errs = .ok (errs ++
      (match spec.min_value with
       | some b => if q < b then
           [mkError ErrorCodes.OUT_OF_RANGE spec.name
             ("Value below minimum: " ++ pyStr raw)]
         else []
       | none => []) ++
      (match spec.max_value with
       | some b => if b < q then
           [mkError ErrorCodes.OUT_OF_RANGE spec.name
             ("Value above maximum: " ++ pyStr raw)]
         else []
       | none => [])) := by
  unfold checkBounds
  rw [if_neg hv]
  cases hmin : spec.min_value with
  | none =>
      cases hmax : spec.max_value with
      | none => simp [Bind.bind, Except.bind, pure, Except.pure]
      | some b =>
          simp only [hnv, Bind.bind, Except.bind, pure, Except.pure]
          split_ifs <;> simp
  | some b =>
      cases hmax : spec.max_value with
      | none =>
          simp only [hnv, Bind.bind, Except.bind, pure, Except.pure]
          split_ifs <;> simp
      | some b2 =>
          simp only [hnv, Bind.bind, Except.bind, pure, Except.pure]
          split_ifs <;> simp

/-- checkBounds emits an OUT_OF_RANGE error for its field whenever the
numeric value violates a declared bound. -/
theorem checkBounds_oor (spec : FieldSpec) (raw : Value) (v : Norm)
    (errs errs2 : List VError) (q : Rat)
    (hok : checkBounds spec raw v errs = .ok errs2)
    (hnv : numVal v = some q)
    (hviol : (∃ b, spec.min_value = some b ∧ q < b) ∨
      (∃ b, spec.max_value = some b ∧ b < q)) :
    ∃ e ∈ errs2, e.code = ErrorCodes.OUT_OF_RANGE ∧ e.field = spec.name := by
  have hv : v ≠ Norm.null := by
    intro h
    rw [h] at hnv
    simp [numVal] at hnv
  rw [checkBounds_eq spec raw v errs q hv hnv] at hok
  simp only [Except.ok.injEq] at hok
  subst hok
  rcases hviol with ⟨b, hb, hlt⟩ | ⟨b, hb, hgt⟩
  · refine ⟨mkError ErrorCodes.OUT_OF_RANGE spec.name
      ("Value below minimum: " ++ pyStr raw), ?_, by simp [mkError]⟩
    rw [hb]
    simp [if_pos hlt]
  · refine ⟨mkError ErrorCodes.OUT_OF_RANGE spec.name
      ("Value above maximum: " ++ pyStr raw), ?_, by simp [mkError]⟩
    rw [hb]
    simp [if_pos hgt]

/-- checkBounds is the identity on errors for a null value. -/
theorem checkBounds_null (spec : FieldSpec) (raw : Value)
    (errs : List VError) : checkBounds spec raw Norm.null errs = .ok errs := by
  unfold checkBounds
  simp

/-- processField on an absent or empty raw value yields a null slot and at
most a MISSING_FIELD error. -/
theorem processField_null (payload : List (String × Value)) (spec : FieldSpec)
    (v : Norm) (errs : List VError)
    (hok : processField payload spec = .ok (v, errs))
    (hraw : payloadGet payload spec.name = .null ∨
      payloadGet payload spec.name = .str "") :
    v = Norm.null ∧ errs =
      (if spec.required then
        [mkError ErrorCodes.MISSING_FIELD spec.name "Field is required."]
      else []) := by
  unfold processField at hok
  rw [if_pos hraw] at hok
  simp only [Except.ok.injEq, Prod.mk.injEq] at hok
  exact ⟨hok.1.symm, hok.2.symm⟩

/-- processField on a present raw value decomposes into the type dispatch
followed by the bound check. -/
theorem processField_decomp (payload : List (String × Value))
    (spec : FieldSpec) (v : Norm) (errs : List VError)
    (hok : processField payload spec = .ok (v, errs))
    (hraw : ¬(payloadGet payload spec.name = .null ∨
      payloadGet payload spec.name = .str "")) :
    ∃ errs1, fieldValue spec (payloadGet payload spec.name) = .ok (v, errs1) ∧
      checkBounds spec (payloadGet payload spec.name) v errs1 = .ok errs := by
  unfold processField at hok
  rw [if_neg hraw] at hok
  cases hfv : fieldValue spec (payloadGet payload spec.name) with
  | error e =>
      rw [hfv] at hok
      simp [Bind.bind, Except.bind] at hok
  | ok p =>
      obtain ⟨v1, errs1⟩ := p
      rw [hfv] at hok
      simp only [Bind.bind, Except.bind] at hok
      cases hcb : checkBounds spec (payloadGet payload spec.name) v1 errs1 with
      | error e =>
          rw [hcb] at hok
          simp at hok
      | ok errs2 =>
          rw [hcb] at hok
          simp only [Except.ok.injEq, Prod.mk.injEq] at hok
          obtain ⟨hv, he⟩ := hok
          subst hv
          subst he
          exact ⟨errs1, rfl, hcb⟩

/-- processField only emits errors attributed to its own field. -/
theorem processField_field (payload : List (String × Value))
    (spec : FieldSpec) (v : Norm) (errs : List VError)
    (hok : processField payload spec = .ok (v, errs)) :
    ∀ e ∈ errs, e.field = spec.name := by
  by_cases hraw : payloadGet payload spec.name = .null ∨
      payloadGet payload spec.name = .str ""
  · obtain ⟨-, he⟩ := processField_null payload spec v errs hok hraw
    subst he
    split <;> simp [mkError]
  · obtain ⟨errs1, hfv, hcb⟩ := processField_decomp payload spec v errs hok hraw
    obtain ⟨tail, htail, hta⟩ :=
      checkBounds_shape spec (payloadGet payload spec.name) v errs1 errs hcb
    subst htail
    intro e he
    rcases List.mem_append.mp he with h | h
    · exact fieldValue_field spec (payloadGet payload spec.name) v errs1 hfv e h
    · exact (hta e h).2

/-- processField never produces both a format error and an OUT_OF_RANGE
error: a format error forces the value to null, which skips the bound
check. -/
theorem processField_no_both (payload : List (String × Value))
    (spec : FieldSpec) (v : Norm) (errs : List VError)
    (hok : processField payload spec = .ok (v, errs)) :
    ¬((∃ e ∈ errs, isFormatCode e.code = true) ∧
      (∃ e ∈ errs, e.code = ErrorCodes.OUT_OF_RANGE)) := by
  rintro ⟨⟨e1, hm1, hf1⟩, ⟨e2, hm2, hc2⟩⟩
  by_cases hraw : payloadGet payload spec.name = .null ∨
      payloadGet payload spec.name = .str ""
  · obtain ⟨-, he⟩ := processField_null payload spec v errs hok hraw
    subst he
    split at hm1
    · simp at hm1
      subst hm1
      simp only [mkError] at hf1
      exact absurd hf1 (by decide)
    · simp at hm1
  · obtain ⟨errs1, hfv, hcb⟩ := processField_decomp payload spec v errs hok hraw
    obtain ⟨t2, htail, hta⟩ :=
      checkBounds_shape spec (payloadGet payload spec.name) v errs1 errs hcb
    rcases fieldValue_cases spec (payloadGet payload spec.name) v errs1 hfv with
      h0 | ⟨code, msg, hsing, hnull, -⟩
    · have hm1' : e1 ∈ t2 := by
        rw [htail, h0] at hm1
        simpa using hm1
      have := (hta e1 hm1').1
      rw [this] at hf1
      exact absurd hf1 (by decide)
    · by_cases hfc : isFormatCode code = true
      · have hv : v = Norm.null := hnull hfc
        subst hv
        rw [checkBounds_null] at hcb
        simp only [Except.ok.injEq] at hcb
        subst hcb
        rw [hsing] at hm2
        simp at hm2
        subst hm2
        simp [mkError] at hc2
        rw [hc2] at hfc
        exact absurd hfc (by decide)
      · subst htail
        rcases List.mem_append.mp hm1 with h | h
        · rw [hsing] at h
          simp at h
          subst h
          simp only [mkError] at hf1
          exact hfc hf1
        · have := (hta e1 h).1
          rw [this] at hf1
          exact absurd hf1 (by decide)

/-- validate_and_normalize attributes every error to a declared field. -/
theorem validate_fields_sub (payload : List (String × Value)) :
    ∀ (schema : List FieldSpec) (r : List (String × Norm))
      (errs : List VError),
      validate_and_normalize payload schema = .ok (r, errs) →
      ∀ e ∈ errs, e.field ∈ schema.map (fun s => s.name)
  | [], r, errs, hok => by
      simp only [validate_and_normalize, Except.ok.injEq, Prod.mk.injEq] at hok
      rw [← hok.2]
      simp
  | spec :: rest, r, errs, hok => by
      unfold validate_and_normalize at hok
      cases hpf : processField payload spec with
      | error e =>
          rw [hpf] at hok
          simp [Bind.bind, Except.bind] at hok
      | ok p =>
          obtain ⟨v, es⟩ := p
          rw [hpf] at hok
          simp only [Bind.bind, Except.bind] at hok
          cases hvr : validate_and_normalize payload rest with
          | error e =>
              rw [hvr] at hok
              simp at hok
          | ok pr =>
              obtain ⟨recs, esr⟩ := pr
              rw [hvr] at hok
              simp only [Except.ok.injEq, Prod.mk.injEq] at hok
              obtain ⟨-, he⟩ := hok
              subst he
              intro e he
              simp only [List.map_cons, List.mem_cons]
              rcases List.mem_append.mp he with h | h
              · exact Or.inl (processField_field payload spec v es hpf e h)
              · exact Or.inr
                  (validate_fields_sub payload rest recs esr hvr e h)

/-- validate_and_normalize with pairwise-distinct field names never
returns both a format error and an OUT_OF_RANGE error on one field. -/
theorem validate_no_both (payload : List (String × Value)) :
    ∀ (schema : List FieldSpec),
      (schema.map (fun s => s.name)).Nodup →
      ∀ (r : List (String × Norm)) (errs : List VError),
        validate_and_normalize payload schema = .ok (r, errs) →
        ∀ f, ¬ hasBothOnField errs f
  | [], _, r, errs, hok, f => by
      simp only [validate_and_normalize, Except.ok.injEq, Prod.mk.injEq] at hok
      rintro ⟨⟨e, hm, -⟩, -⟩
      rw [← hok.2] at hm
      simp at hm
  | spec :: rest, hnd, r, errs, hok, f => by
      unfold validate_and_normalize at hok
      cases hpf : processField payload spec with
      | error e =>
          rw [hpf] at hok
          simp [Bind.bind, Except.bind] at hok
      | ok p =>
          obtain ⟨v, es⟩ := p
          rw [hpf] at hok
          simp only [Bind.bind, Except.bind] at hok
          cases hvr : validate_and_normalize payload rest with
          | error e =>
              rw [hvr] at hok
              simp at hok
          | ok pr =>
              obtain ⟨recs, esr⟩ := pr
              rw [hvr] at hok
              simp only [Except.ok.injEq, Prod.mk.injEq] at hok
              obtain ⟨-, he⟩ := hok
              subst he
              simp only [List.map_cons, List.nodup_cons] at hnd
              rintro ⟨⟨e1, hm1, hff1, hf1⟩, ⟨e2, hm2, hff2, hc2⟩⟩
              rcases List.mem_append.mp hm1 with h1 | h1 <;>
                rcases List.mem_append.mp hm2 with h2 | h2
              · exact processField_no_both payload spec v es hpf
                  ⟨⟨e1, h1, hf1⟩, ⟨e2, h2, hc2⟩⟩
              · have hn1 : e1.field = spec.name :=
                  processField_field payload spec v es hpf e1 h1
                have hn2 : e2.field ∈ rest.map (fun s => s.name) :=
                  validate_fields_sub payload rest recs esr hvr e2 h2
                rw [hff2, ← hff1, hn1] at hn2
                exact hnd.1 hn2
              · have hn2 : e2.field = spec.name :=
                  processField_field payload spec v es hpf e2 h2
                have hn1 : e1.field ∈ rest.map (fun s => s.name) :=
                  validate_fields_sub payload rest recs esr hvr e1 h1
                rw [hff1, ← hff2, hn2] at hn1
                exact hnd.1 hn1
              · exact validate_no_both payload rest hnd.2 recs esr hvr f
                  ⟨⟨e1, h1, hff1, hf1⟩, ⟨e2, h2, hff2, hc2⟩⟩

/-- processField never emits UNKNOWN_LOAN_ID: that code belongs to the
referential check of the orchestrator, not to row validation. -/
theorem processField_no_unknown (payload : List (String × Value))
    (spec : FieldSpec) (v : Norm) (errs : List VError)
    (hok : processField payload spec = .ok (v, errs)) :
    ∀ e ∈ errs, e.code ≠ ErrorCodes.UNKNOWN_LOAN_ID := by
  by_cases hraw : payloadGet payload spec.name = .null ∨
      payloadGet payload spec.name = .str ""
  · obtain ⟨-, he⟩ := processField_null payload spec v errs hok hraw
    subst he
    split
    · intro e he2
      simp at he2
      subst he2
      simp [mkError]
      decide
    · intro e he2
      simp at he2
  · obtain ⟨errs1, hfv, hcb⟩ := processField_decomp payload spec v errs hok hraw
    obtain ⟨t2, htail, hta⟩ :=
      checkBounds_shape spec (payloadGet payload spec.name) v errs1 errs hcb
    subst htail
    intro e he2
    rcases List.mem_append.mp he2 with h | h
    · rcases fieldValue_cases spec (payloadGet payload spec.name) v errs1 hfv
        with h0 | ⟨code, msg, hsing, -, hcode⟩
      · rw [h0] at h
        simp at h
      · rw [hsing] at h
        simp at h
        subst h
        simpa [mkError] using hcode
    · rw [(hta e h).1]
      decide

/-- validate_and_normalize never emits UNKNOWN_LOAN_ID. -/
theorem validate_no_unknown (payload : List (String × Value)) :
    ∀ (schema : List FieldSpec) (r : List (String × Norm))
      (errs : List VError),
      validate_and_normalize payload schema = .ok (r, errs) →
      ∀ e ∈ errs, e.code ≠ ErrorCodes.UNKNOWN_LOAN_ID
  | [], r, errs, hok => by
      simp only [validate_and_normalize, Except.ok.injEq, Prod.mk.injEq] at hok
      rw [← hok.2]
      simp
  | spec :: rest, r, errs, hok => by
      unfold validate_and_normalize at hok
      cases hpf : processField payload spec with
      | error e =>
          rw [hpf] at hok
          simp [Bind.bind, Except.bind] at hok
      | ok p =>
          obtain ⟨v, es⟩ := p
          rw [hpf] at hok
          simp only [Bind.bind, Except.bind] at hok
          cases hvr : validate_and_normalize payload rest with
          | error e =>
              rw [hvr] at hok
              simp at hok
          | ok pr =>
              obtain ⟨recs, esr⟩ := pr
              rw [hvr] at hok
              simp only [Except.ok.injEq, Prod.mk.injEq] at hok
              obtain ⟨-, he⟩ := hok
              subst he
              intro e he
              rcases List.mem_append.mp he with h | h
              · exact processField_no_unknown payload spec v es hpf e h
              · exact validate_no_unknown payload rest recs esr hvr e h

/-- C6 counterexample: the claim's consequence is impossible — for the two
fixed schemas no returned error list ever carries both a format error and
an OUT_OF_RANGE error on one field, because a format error forces the
normalized value to null and the bound check is skipped on null. -/
theorem c6_counterexample :
    ¬ ∃ (payload : List (String × Value)) (r : List (String × Norm))
        (errs : List VError) (f : String),
      (validate_and_normalize payload CREDIT_FIELDS = .ok (r, errs) ∨
        validate_and_normalize payload PAYMENT_PLAN_FIELDS = .ok (r, errs)) ∧
      hasBothOnField errs f := by
  rintro ⟨payload, r, errs, f, hok | hok, hboth⟩
  · exact validate_no_both payload CREDIT_FIELDS (by decide) r errs hok f hboth
  · exact validate_no_both payload PAYMENT_PLAN_FIELDS (by decide) r errs hok
      f hboth

/-- C6 amended: whenever a non-null normalized value violates the declared
min or max bound, an OUT_OF_RANGE error for that field is appended to the
error list, preserving every previously emitted error; however a single
field never carries both a format error and an OUT_OF_RANGE error, since a
format error forces the normalized value to null, which skips the bound
check. -/
theorem c6_out_of_range_emission :
    (∀ (spec : FieldSpec) (raw : Value) (v : Norm) (errs errs2 : List VError),
      checkBounds spec raw v errs = .ok errs2 →
      ∃ tail, errs2 = errs ++ tail ∧
        ∀ e ∈ tail, e.code = ErrorCodes.OUT_OF_RANGE ∧ e.field = spec.name) ∧
    (∀ (payload : List (String × Value)) (spec : FieldSpec) (v : Norm)
        (errs : List VError) (q : Rat),
      processField payload spec = .ok (v, errs) → numVal v = some q →
      ((∃ b, spec.min_value = some b ∧ q < b) ∨
        (∃ b, spec.max_value = some b ∧ b < q)) →
      ∃ e ∈ errs, e.code = ErrorCodes.OUT_OF_RANGE ∧ e.field = spec.name) ∧
    (∀ (payload : List (String × Value)) (r : List (String × Norm))
        (errs : List VError) (f : String),
      (validate_and_normalize payload CREDIT_FIELDS = .ok (r, errs) ∨
        validate_and_normalize payload PAYMENT_PLAN_FIELDS = .ok (r, errs)) →
      ¬ hasBothOnField errs f) := by
  refine ⟨?_, ?_, ?_⟩
  · exact fun spec raw v errs errs2 h => checkBounds_shape spec raw v errs errs2 h
  · intro payload spec v errs q hok hnv hviol
    by_cases hraw : payloadGet payload spec.name = .null ∨
        payloadGet payload spec.name = .str ""
    · obtain ⟨hv, -⟩ := processField_null payload spec v errs hok hraw
      rw [hv] at hnv
      simp [numVal] at hnv
    · obtain ⟨errs1, hfv, hcb⟩ :=
        processField_decomp payload spec v errs hok hraw
      exact checkBounds_oor spec _ v errs1 errs q hcb hnv hviol
  · rintro payload r errs f (hok | hok)
    · exact validate_no_both payload CREDIT_FIELDS (by decide) r errs hok f
    · exact validate_no_both payload PAYMENT_PLAN_FIELDS (by decide) r errs
        hok f

/-- C6 witness: a concrete OUT_OF_RANGE emission through processField. -/
theorem c6_witness :
    processField [("days_past_due", Value.str "-1")]
        (fs "days_past_due" "int" false (some 0) none) =
      .ok (Norm.int (-1), [mkError ErrorCodes.OUT_OF_RANGE "days_past_due"
        "Value below minimum: -1"]) ∧
    numVal (Norm.int (-1)) = some (-1) ∧
    ∃ e ∈ [mkError ErrorCodes.OUT_OF_RANGE "days_past_due"
        "Value below minimum: -1"],
      e.code = ErrorCodes.OUT_OF_RANGE ∧ e.field = "days_past_due" :=
  ⟨by decide, by decide,
    c6_out_of_range_emission.2.1 [("days_past_due", Value.str "-1")]
      (fs "days_past_due" "int" false (some 0) none) (Norm.int (-1))
      [mkError ErrorCodes.OUT_OF_RANGE "days_past_due"
        "Value below minimum: -1"] (-1) (by decide) (by decide)
      (Or.inl ⟨0, rfl, by norm_num⟩)⟩

/-- c3dirtyPayload is a PAYMENT_PLAN row with an unknown loan reference
and an invalid installment_number. -/
def c3dirtyPayload : List (String × Value) :=
  [("loan_account_number", .str "L9"), ("installment_number", .str "x"),
   ("scheduled_payment_date", .str "2025-01-01"),
   ("installment_amount", .str "10")]

/-- c3cleanPayload is a schema-clean PAYMENT_PLAN row whose loan reference
is not in the credit id set. -/
def c3cleanPayload : List (String × Value) :=
  [("loan_account_number", .str "L9"), ("installment_number", .str "1"),
   ("scheduled_payment_date", .str "2025-01-01"),
   ("installment_amount", .str "10")]

/-- c3rec is the normalized record of the clean payload, extracted from
the validator's output. -/
def c3rec : List (String × Norm) :=
  match validate_and_normalize c3cleanPayload PAYMENT_PLAN_FIELDS with
  | .ok (r, _) => r
  | .error _ => []

/-- C3 counterexample: a PAYMENT_PLAN row whose loan reference "L9" is
absent from the (empty) credit id set but whose installment_number is
invalid is counted invalid through its schema error only — no
UNKNOWN_LOAN_ID error is emitted, contradicting "regardless of the
validity of the row's other fields". -/
theorem c3_counterexample :
    validate_all_rows [c3dirtyPayload] PAYMENT_PLAN_FIELDS "PAYMENT_PLAN"
        (some []) "b1" =
      .ok (0, 1, [⟨"b1", 1, ErrorCodes.INVALID_INT_FORMAT,
        some "installment_number", "Invalid integer: x", c3dirtyPayload⟩]) ∧
    ∀ e ∈ [(⟨"b1", 1, ErrorCodes.INVALID_INT_FORMAT,
        some "installment_number", "Invalid integer: x",
        c3dirtyPayload⟩ : BatchErrorRec)],
      e.error_code ≠ ErrorCodes.UNKNOWN_LOAN_ID := by
  constructor
  · decide
  · decide

/-- C3 amended: in the dry pass a PAYMENT_PLAN row that passes schema
validation with zero errors but whose loan reference is falsy or absent
from the credit id set is counted invalid with exactly one UNKNOWN_LOAN_ID
error; a row with schema errors is counted invalid through those errors
alone, and row validation itself never emits UNKNOWN_LOAN_ID, so a
schema-invalid row never receives one. -/
theorem c3_unknown_loan_id_emission :
    (∀ (payload : List (String × Value))
        (rows : List (List (String × Value))) (ids : Option (List String))
        (bid : String) (n : Nat) (rec : List (String × Norm)) (v i : Nat)
        (es : List BatchErrorRec),
      validate_and_normalize payload PAYMENT_PLAN_FIELDS = .ok (rec, []) →
      is_payment_ref_valid "PAYMENT_PLAN"
        (recGet rec "loan_account_number") ids = false →
      validateRowsFrom PAYMENT_PLAN_FIELDS "PAYMENT_PLAN" ids bid (n + 1)
        rows = .ok (v, i, es) →
      validateRowsFrom PAYMENT_PLAN_FIELDS "PAYMENT_PLAN" ids bid n
        (payload :: rows) =
        .ok (v, i + 1, unknownLoanIdRec bid n payload :: es)) ∧
    (∀ (payload : List (String × Value))
        (rows : List (List (String × Value))) (ids : Option (List String))
        (bid : String) (n : Nat) (rec : List (String × Norm))
        (rerrs : List VError) (v i : Nat) (es : List BatchErrorRec),
      validate_and_normalize payload PAYMENT_PLAN_FIELDS = .ok (rec, rerrs) →
      rerrs ≠ [] →
      validateRowsFrom PAYMENT_PLAN_FIELDS "PAYMENT_PLAN" ids bid (n + 1)
        rows = .ok (v, i, es) →
      validateRowsFrom PAYMENT_PLAN_FIELDS "PAYMENT_PLAN" ids bid n
        (payload :: rows) =
        .ok (v, i + 1, rowErrorRecs bid n payload rerrs ++ es)) ∧
    (∀ (payload : List (String × Value)) (rec : List (String × Norm))
        (rerrs : List VError),
      validate_and_normalize payload PAYMENT_PLAN_FIELDS = .ok (rec, rerrs) →
      ∀ e ∈ rerrs, e.code ≠ ErrorCodes.UNKNOWN_LOAN_ID) := by
  refine ⟨?_, ?_, ?_⟩
  · intro payload rows ids bid n rec v i es hv href hrest
    unfold validateRowsFrom
    rw [hv]
    simp only [Bind.bind, Except.bind]
    rw [hrest]
    simp [href]
  · intro payload rows ids bid n rec rerrs v i es hv hne hrest
    unfold validateRowsFrom
    rw [hv]
    simp only [Bind.bind, Except.bind]
    rw [hrest]
    simp [hne]
  · intro payload rec rerrs hv
    exact validate_no_unknown payload PAYMENT_PLAN_FIELDS rec rerrs hv

/-- C3 witness: a concrete schema-clean row with an unknown reference
receives UNKNOWN_LOAN_ID and is counted invalid. -/
theorem c3_witness :
    validateRowsFrom PAYMENT_PLAN_FIELDS "PAYMENT_PLAN" (some []) "b1" 1
        [c3cleanPayload] =
      .ok (0, 0 + 1, [unknownLoanIdRec "b1" 1 c3cleanPayload]) :=
  c3_unknown_loan_id_emission.1 c3cleanPayload [] (some []) "b1" 1 c3rec
    0 0 [] (by decide) (by decide) (by decide)

/-- c2staleState is an analytical-store state holding the staging object
left behind by a crashed run of batch "dead-123". -/
def c2staleState : ChState :=
  ⟨["dwh_bank001"],
    [⟨"dwh_bank001", "fact_loans_current_retail_staging_dead",
      [[("x", Norm.int 1)]]⟩]⟩

/-- c2staleWorld is a world whose analytical store still holds the crashed
run's staging object, with one valid CREDIT source row for the next run. -/
def c2staleWorld : World :=
  { clients := [⟨"BANK001"⟩], batches := [], batch_errors := [],
    pg_loans := [], pg_plans := [], ch := c2staleState,
    source_loans := [⟨"BANK001", "RETAIL", "L1",
      [("loan_account_number", .str "L1"), ("loan_status_code", .str "A"),
       ("loan_start_date", .str "2025-01-01"),
       ("original_loan_amount", .str "1000")]⟩],
    source_plans := [], idSupply := ["beef-1"], clock := 0, trace := [] }

/-- C2 counterexample: the staging object of crashed batch "dead-123" for
the same (tenant, loan type, dataset kind) is not removed by the next
run's drop-if-exists step — whose DROP names only the new batch's own
staging table — and persists past the entire next (successful) run. -/
theorem c2_counterexample :
    stagingName (resolve_target_table "CREDIT" "RETAIL") "dead-123" =
      "fact_loans_current_retail_staging_dead" ∧
    (init_clickhouse c2staleState "bank001" "CREDIT" "RETAIL" "beef-1").map
        (fun r => (r.1.hasTable "dwh_bank001"
          "fact_loans_current_retail_staging_dead", r.2.staging)) =
      .ok (true, "fact_loans_current_retail_staging_beef") ∧
    (run_ingestion c2staleWorld "BANK001" "RETAIL" "CREDIT" none).map
        (fun r => (r.2, r.1.ch.hasTable "dwh_bank001"
          "fact_loans_current_retail_staging_dead")) =
      .ok (true, true) := by
  refine ⟨by decide, by decide, by decide⟩

/-- C2 amended: the drop-if-exists step of init_clickhouse removes only a
staging object bearing the current run's own name (target table plus the
current batch id's first segment), making staging creation idempotent for
a re-run of the same batch; every other table — in particular a staging
object left by a crashed run under a different batch id — is left in
place, and the fresh staging table is created empty. -/
theorem c2_staging_drop_scope (st : ChState) (key dt lt bid : String)
    (st' : ChState) (ctx : ChCtx)
    (hok : init_clickhouse st key dt lt bid = .ok (st', ctx)) :
    ctx.staging = stagingName (resolve_target_table dt lt) bid ∧
    ctx.db = "dwh_" ++ pyLower key ∧
    ChTable.mk ctx.db ctx.staging [] ∈ st'.tables ∧
    (∀ t ∈ st.tables, ¬(t.db = ctx.db ∧ t.name = ctx.staging) →
      t ∈ st'.tables) := by
  unfold init_clickhouse at hok
  cases hsc : get_schema dt with
  | error e =>
      rw [hsc] at hok
      simp [Bind.bind, Except.bind] at hok
  | ok schema =>
      rw [hsc] at hok
      simp only [Bind.bind, Except.bind, Except.ok.injEq, Prod.mk.injEq]
        at hok
      obtain ⟨hst, hctx⟩ := hok
      subst hctx
      subst hst
      refine ⟨rfl, rfl, ?_, ?_⟩
      · simp [ChState.createTable, ChState.dropIfExists,
          ChState.createDatabaseIfAbsent]
      · intro t ht hne
        simp only [ChState.createTable, ChState.dropIfExists,
          ChState.createDatabaseIfAbsent, List.mem_append]
        left
        split
        · rw [List.mem_filter]
          exact ⟨ht, decide_eq_true hne⟩
        · rw [List.mem_filter]
          exact ⟨ht, decide_eq_true hne⟩

/-- C2 witness: the amended drop scope at the concrete stale state. -/
theorem c2_witness :
    (∃ st' ctx, init_clickhouse c2staleState "bank001" "CREDIT" "RETAIL"
        "beef-1" = .ok (st', ctx) ∧
      ctx.staging = stagingName (resolve_target_table "CREDIT" "RETAIL")
        "beef-1" ∧
      ctx.db = "dwh_" ++ pyLower "bank001" ∧
      ChTable.mk ctx.db ctx.staging [] ∈ st'.tables ∧
      (∀ t ∈ c2staleState.tables, ¬(t.db = ctx.db ∧ t.name = ctx.staging) →
        t ∈ st'.tables)) := by
  have hsome : (init_clickhouse c2staleState "bank001" "CREDIT" "RETAIL"
      "beef-1").toOption.isSome = true := by decide
  cases hok : init_clickhouse c2staleState "bank001" "CREDIT" "RETAIL"
      "beef-1" with
  | error e =>
      rw [hok] at hsome
      simp [Except.toOption] at hsome
  | ok r =>
      obtain ⟨st', ctx⟩ := r
      obtain ⟨h1, h2, h3, h4⟩ :=
        c2_staging_drop_scope c2staleState "bank001" "CREDIT" "RETAIL"
          "beef-1" st' ctx hok
      exact ⟨st', ctx, rfl, h1, h2, h3, h4⟩

@[simp]
theorem saveBatch_pg_loans (w : World) (b : BatchRec) :
    (w.saveBatch b).pg_loans = w.pg_loans := rfl

@[simp]
theorem saveBatch_pg_plans (w : World) (b : BatchRec) :
    (w.saveBatch b).pg_plans = w.pg_plans := rfl

@[simp]
theorem saveBatch_ch (w : World) (b : BatchRec) : (w.saveBatch b).ch = w.ch :=
  rfl

@[simp]
theorem saveBatch_source_loans (w : World) (b : BatchRec) :
    (w.saveBatch b).source_loans = w.source_loans := rfl

@[simp]
theorem saveBatch_source_plans (w : World) (b : BatchRec) :
    (w.saveBatch b).source_plans = w.source_plans := rfl

@[simp]
theorem saveBatch_batch_errors (w : World) (b : BatchRec) :
    (w.saveBatch b).batch_errors = w.batch_errors := rfl

@[simp]
theorem saveBatch_clients (w : World) (b : BatchRec) :
    (w.saveBatch b).clients = w.clients := rfl

@[simp]
theorem saveBatch_clock (w : World) (b : BatchRec) :
    (w.saveBatch b).clock = w.clock := rfl

@[simp]
theorem saveBatch_trace (w : World) (b : BatchRec) :
    (w.saveBatch b).trace = w.trace := rfl

@[simp]
theorem emit_source_loans (w : World) (es : List Ev) :
    (w.emit es).source_loans = w.source_loans := rfl

@[simp]
theorem emit_source_plans (w : World) (es : List Ev) :
    (w.emit es).source_plans = w.source_plans := rfl

@[simp]
theorem emit_clients (w : World) (es : List Ev) :
    (w.emit es).clients = w.clients := rfl

@[simp]
theorem emit_pg_loans (w : World) (es : List Ev) :
    (w.emit es).pg_loans = w.pg_loans := rfl

@[simp]
theorem emit_pg_plans (w : World) (es : List Ev) :
    (w.emit es).pg_plans = w.pg_plans := rfl

@[simp]
theorem emit_ch (w : World) (es : List Ev) : (w.emit es).ch = w.ch := rfl

@[simp]
theorem emit_batches (w : World) (es : List Ev) :
    (w.emit es).batches = w.batches := rfl

@[simp]
theorem emit_batch_errors (w : World) (es : List Ev) :
    (w.emit es).batch_errors = w.batch_errors := rfl

@[simp]
theorem emit_trace (w : World) (es : List Ev) :
    (w.emit es).trace = w.trace ++ es := rfl

@[simp]
theorem findBatch_emit (w : World) (es : List Ev) (i : String) :
    (w.emit es).findBatch i = w.findBatch i := rfl

@[simp]
theorem get_source_queryset_saveBatch (w : World) (b : BatchRec)
    (a l d : String) :
    get_source_queryset (w.saveBatch b) a l d = get_source_queryset w a l d :=
  rfl

@[simp]
theorem get_credit_id_set_saveBatch (w : World) (b : BatchRec)
    (a l d : String) :
    get_credit_id_set (w.saveBatch b) a l d = get_credit_id_set w a l d :=
  rfl

/-- find_replace: replacing the batch with a given id and then loading
that id yields the replacement, provided the id was present. -/
theorem find_replace (l : List BatchRec) (b : BatchRec)
    (h : ∃ x ∈ l, x.id = b.id) :
    (l.map (fun x => if x.id = b.id then b else x)).find?
      (fun x => x.id = b.id) = some b := by
  induction l with
  | nil =>
      obtain ⟨x, hx, -⟩ := h
      cases hx
  | cons y ys ih =>
      by_cases hy : y.id = b.id
      · simp [List.find?, hy]
      · obtain ⟨x, hx, hid⟩ := h
        rcases List.mem_cons.mp hx with hxy | hxy
        · subst hxy
          exact absurd hid hy
        · simp only [List.map_cons, List.find?, if_neg hy,
            decide_eq_false hy]
          exact ih ⟨x, hxy, hid⟩

/-- findBatch after saveBatch of a present id yields the saved record. -/
theorem findBatch_saveBatch_self (w : World) (b : BatchRec)
    (h : ∃ x ∈ w.batches, x.id = b.id) :
    (w.saveBatch b).findBatch b.id = some b :=
  find_replace w.batches b h

/-- saveBatch preserves the presence of any batch id. -/
theorem mem_id_saveBatch (w : World) (b : BatchRec) (i : String)
    (h : ∃ x ∈ w.batches, x.id = i) :
    ∃ x ∈ (w.saveBatch b).batches, x.id = i := by
  obtain ⟨x, hx, hid⟩ := h
  by_cases hxb : x.id = b.id
  · refine ⟨b, ?_, by rw [← hxb, hid]⟩
    exact List.mem_map.mpr ⟨x, hx, by rw [if_pos hxb]⟩
  · refine ⟨x, ?_, hid⟩
    exact List.mem_map.mpr ⟨x, hx, by rw [if_neg hxb]⟩

/-- setProcessing preserves every store, stamps PROCESSING, keeps the
batch id, and appends exactly one status write to the trace. -/
theorem setProcessing_state (lt : String) (w1 : World) (b : BatchRec) :
    (setProcessing lt (w1, b)).1.pg_loans = w1.pg_loans ∧
    (setProcessing lt (w1, b)).1.pg_plans = w1.pg_plans ∧
    (setProcessing lt (w1, b)).1.ch = w1.ch ∧
    (setProcessing lt (w1, b)).1.source_loans = w1.source_loans ∧
    (setProcessing lt (w1, b)).1.source_plans = w1.source_plans ∧
    (setProcessing lt (w1, b)).1.batch_errors = w1.batch_errors ∧
    (setProcessing lt (w1, b)).2.status = "PROCESSING" ∧
    (setProcessing lt (w1, b)).2.id = b.id ∧
    (setProcessing lt (w1, b)).1.trace =
      w1.trace ++ [Ev.statusWrite b.id "PROCESSING"] := by
  cases hst : b.started_at <;> simp [setProcessing, hst]

/-- setProcessing leaves its result loadable by the batch id. -/
theorem setProcessing_findBatch (lt : String) (w1 : World) (b : BatchRec)
    (h : ∃ x ∈ w1.batches, x.id = b.id) :
    (setProcessing lt (w1, b)).1.findBatch b.id =
      some (setProcessing lt (w1, b)).2 := by
  cases hst : b.started_at <;>
  · simp only [setProcessing, hst, findBatch_emit]
    exact findBatch_saveBatch_self _ _ h

/-- initLoadBatch preserves every store and returns a batch whose id is
present in the batch table. -/
theorem initLoadBatch_state (w0 : World) (tid lt : String)
    (bid : Option String) (wl : World) (bl : BatchRec)
    (hok : initLoadBatch w0 tid lt bid = .ok (wl, bl)) :
    wl.pg_loans = w0.pg_loans ∧ wl.pg_plans = w0.pg_plans ∧
    wl.ch = w0.ch ∧ wl.source_loans = w0.source_loans ∧
    wl.source_plans = w0.source_plans ∧
    wl.batch_errors = w0.batch_errors ∧
    ∃ x ∈ wl.batches, x.id = bl.id := by
  cases bid with
  | some bidv =>
      simp only [initLoadBatch] at hok
      by_cases hb : bidv = ""
      · rw [if_pos hb] at hok
        exact absurd hok (by simp)
      · rw [if_neg hb] at hok
        cases hf : w0.findBatch bidv with
        | none =>
            rw [hf] at hok
            exact absurd hok (by simp)
        | some b0 =>
            rw [hf] at hok
            simp only [Except.ok.injEq, Prod.mk.injEq] at hok
            obtain ⟨hw, hb2⟩ := hok
            subst hw
            subst hb2
            exact ⟨rfl, rfl, rfl, rfl, rfl, rfl,
              ⟨_, List.mem_of_find?_eq_some hf, rfl⟩⟩
  | none =>
      simp only [initLoadBatch] at hok
      cases hf : w0.clients.find?
          (fun c => pyLower c.tenant_code = pyLower tid) with
      | none =>
          rw [hf] at hok
          exact absurd hok (by simp)
      | some c =>
          rw [hf] at hok
          simp only [Except.ok.injEq, Prod.mk.injEq] at hok
          obtain ⟨hw, hb2⟩ := hok
          subst hw
          subst hb2
          refine ⟨rfl, rfl, rfl, rfl, rfl, rfl, ⟨_, ?_, rfl⟩⟩
          simp

/-- init_batch leaves every store except the batch table unchanged, sets
the batch PROCESSING, and leaves the batch loadable by its id. -/
theorem init_batch_state (w0 : World) (tid lt : String) (bid : Option String)
    (w1 : World) (b : BatchRec)
    (hok : init_batch w0 tid lt bid = .ok (w1, b)) :
    w1.pg_loans = w0.pg_loans ∧ w1.pg_plans = w0.pg_plans ∧
    w1.ch = w0.ch ∧ w1.source_loans = w0.source_loans ∧
    w1.source_plans = w0.source_plans ∧
    w1.batch_errors = w0.batch_errors ∧
    b.status = "PROCESSING" ∧ w1.findBatch b.id = some b := by
  unfold init_batch at hok
  cases hl : initLoadBatch w0 tid lt bid with
  | error e =>
      rw [hl] at hok
      simp [Except.map] at hok
  | ok p =>
      obtain ⟨wl, bl⟩ := p
      rw [hl] at hok
      simp only [Except.map, Except.ok.injEq] at hok
      obtain ⟨s1, s2, s3, s4, s5, s6, hmem⟩ :=
        initLoadBatch_state w0 tid lt bid wl bl hl
      obtain ⟨p1, p2, p3, p4, p5, p6, pst, pid, -⟩ :=
        setProcessing_state lt wl bl
      have hfb := setProcessing_findBatch lt wl bl hmem
      have hw1 : (setProcessing lt (wl, bl)).1 = w1 := by
        rw [hok]
      have hb1 : (setProcessing lt (wl, bl)).2 = b := by
        rw [hok]
      rw [hw1] at p1 p2 p3 p4 p5 p6
      rw [hb1] at pst pid
      rw [hw1, hb1] at hfb
      rw [← pid] at hfb
      exact ⟨p1.trans s1, p2.trans s2, p3.trans s3, p4.trans s4,
        p5.trans s5, p6.trans s6, pst, hfb⟩

/-- init_batch with no existing batch id appends exactly the STARTED and
PROCESSING status writes to the trace. -/
theorem init_batch_none_trace (w0 : World) (tid lt : String) (w1 : World)
    (b : BatchRec) (hok : init_batch w0 tid lt none = .ok (w1, b)) :
    w1.trace = w0.trace ++
      [Ev.statusWrite b.id "STARTED", Ev.statusWrite b.id "PROCESSING"] := by
  unfold init_batch initLoadBatch at hok
  cases hf : w0.clients.find?
      (fun c => pyLower c.tenant_code = pyLower tid) with
  | none =>
      rw [hf] at hok
      simp [Except.map] at hok
  | some c =>
      rw [hf] at hok
      simp only [Except.map, Except.ok.injEq] at hok
      have hw1 : (setProcessing lt _).1 = w1 := congrArg Prod.fst hok
      have hb1 : (setProcessing lt _).2 = b := congrArg Prod.snd hok
      rw [← hw1, ← hb1]
      simp [setProcessing]

/-- handle_validation_failure closes the batch FAILED_VALIDATION without
touching the data stores, persisting the errors and stamping
completed_at. -/
theorem handle_validation_failure_spec (w : World) (b : BatchRec)
    (invalid : Nat) (errs : List BatchErrorRec)
    (hmem : ∃ x ∈ w.batches, x.id = b.id) :
    ∃ w2 b2, handle_validation_failure w b invalid errs = (w2, false) ∧
      w2.pg_loans = w.pg_loans ∧ w2.pg_plans = w.pg_plans ∧ w2.ch = w.ch ∧
      w2.batch_errors = w.batch_errors ++ errs ∧
      w2.findBatch b.id = some b2 ∧
      b2.status = "FAILED_VALIDATION" ∧
      b2.invalid_rows = b.invalid_rows ∧ b2.valid_rows = b.valid_rows ∧
      b2.completed_at ≠ none ∧
      ∃ t, w2.trace = w.trace ++
        [Ev.statusWrite b.id "FAILED_VALIDATION",
          Ev.completedWrite b.id t] := by
  refine ⟨_, { b with
      status := "FAILED_VALIDATION",
      error_message :=
        some ("Validation failed for " ++ toString invalid ++ " rows."),
      completed_at := some w.clock },
    rfl, ?_, ?_, ?_, ?_, ?_, rfl, rfl, rfl, by simp, ⟨w.clock, ?_⟩⟩
  · simp [handle_validation_failure]
  · simp [handle_validation_failure]
  · simp [handle_validation_failure]
  · simp [handle_validation_failure]
  · simp only [handle_validation_failure, findBatch_emit]
    exact findBatch_saveBatch_self _ _ hmem
  · simp [handle_validation_failure]

/-- run_body on a nonzero dataset whose dry validation pass finds invalid
rows stops at handle_validation_failure, applied to a world with the same
stores as the input and to a batch carrying the dry-pass counts. -/
theorem run_body_failed_validation (w1 : World) (b : BatchRec)
    (lt dt : String) (schema : List FieldSpec) (valid invalid : Nat)
    (errs : List BatchErrorRec)
    (hmem : ∃ x ∈ w1.batches, x.id = b.id)
    (hsch : get_schema dt = .ok schema)
    (hval : validate_all_rows
      (get_source_queryset w1 (pyUpper b.tenant) lt dt) schema dt
      (get_credit_id_set w1 (pyUpper b.tenant) lt dt) b.id =
      .ok (valid, invalid, errs))
    (hinv : 0 < invalid) :
    ∃ W B, run_body w1 b lt dt =
        .ok (handle_validation_failure W B invalid errs) ∧
      B.id = b.id ∧ B.invalid_rows = (invalid : Int) ∧
      B.valid_rows = (valid : Int) ∧
      W.pg_loans = w1.pg_loans ∧ W.pg_plans = w1.pg_plans ∧
      W.ch = w1.ch ∧ W.batch_errors = w1.batch_errors ∧
      W.trace = w1.trace ∧ (∃ x ∈ W.batches, x.id = b.id) := by
  have hne : ¬ (get_source_queryset w1 (pyUpper b.tenant) lt dt).length = 0 := by
    intro h
    rw [List.length_eq_zero] at h
    rw [h] at hval
    simp only [validate_all_rows, validateRowsFrom, Except.ok.injEq,
      Prod.mk.injEq] at hval
    omega
  unfold run_body
  rw [if_neg (by simpa using hne), hsch]
  simp only [get_credit_id_set_saveBatch, get_source_queryset_saveBatch]
  rw [show ({ b with total_rows :=
      ((get_source_queryset w1 (pyUpper b.tenant) lt dt).length : Int) } :
      BatchRec).id = b.id from rfl]
  rw [hval]
  simp only [gt_iff_lt]
  rw [if_pos hinv]
  refine ⟨_, _, rfl, rfl, rfl, rfl, ?_, ?_, ?_, ?_, ?_, ?_⟩
  · simp
  · simp
  · simp
  · simp
  · simp
  · exact mem_id_saveBatch _ _ _ (mem_id_saveBatch _ _ _ hmem)

/-- C1: a run whose dry validation pass finds at least one invalid row
performs zero destination mutation: the relational and analytical stores
are exactly as before the run, the batch ends FAILED_VALIDATION with
invalid_rows equal to the dry-pass invalid count, and run_ingestion
returns false. -/
theorem c1_validation_failure_frame (w0 : World)
    (tenant_id loan_type dataset_type : String) (batch_id : Option String)
    (tid lt dt : String) (w1 : World) (b : BatchRec)
    (schema : List FieldSpec) (valid invalid : Nat)
    (errs : List BatchErrorRec)
    (hni : normalize_inputs tenant_id loan_type dataset_type =
      .ok (tid, lt, dt))
    (hib : init_batch w0 tid lt batch_id = .ok (w1, b))
    (hsch : get_schema dt = .ok schema)
    (hval : validate_all_rows
      (get_source_queryset w1 (pyUpper b.tenant) lt dt) schema dt
      (get_credit_id_set w1 (pyUpper b.tenant) lt dt) b.id =
      .ok (valid, invalid, errs))
    (hinv : 0 < invalid) :
    ∃ w2 b2, run_ingestion w0 tenant_id loan_type dataset_type batch_id =
        .ok (w2, false) ∧
      w2.pg_loans = w0.pg_loans ∧ w2.pg_plans = w0.pg_plans ∧
      w2.ch = w0.ch ∧
      w2.findBatch b.id = some b2 ∧
      b2.status = "FAILED_VALIDATION" ∧
      b2.invalid_rows = (invalid : Int) := by
  obtain ⟨s1, s2, s3, -, -, -, -, hfb⟩ :=
    init_batch_state w0 tid lt batch_id w1 b hib
  have hmem : ∃ x ∈ w1.batches, x.id = b.id :=
    ⟨b, List.mem_of_find?_eq_some hfb, rfl⟩
  obtain ⟨W, B, hrun, hBid, hBinv, hBval, q1, q2, q3, -, -, hWmem⟩ :=
    run_body_failed_validation w1 b lt dt schema valid invalid errs hmem
      hsch hval hinv
  obtain ⟨w2, b2, heq, p1, p2, p3, -, hfb2, hst, hinvr, -, -, -⟩ :=
    handle_validation_failure_spec W B invalid errs
      (by rw [hBid]; exact hWmem)
  rw [hBid] at hfb2
  refine ⟨w2, b2, ?_, (p1.trans q1).trans s1, (p2.trans q2).trans s2,
    (p3.trans q3).trans s3, hfb2, hst, hinvr.trans hBinv⟩
  unfold run_ingestion
  simp only [hni, hib, hrun]
  rw [heq]

/-- finalizeZeroRows closes the batch SUCCESS with zero counts, touching
no store and appending the terminal status write and completed_at write. -/
theorem finalizeZeroRows_spec (w1 : World) (b1 : BatchRec)
    (hmem : ∃ x ∈ w1.batches, x.id = b1.id) :
    (finalizeZeroRows w1 b1).2 = true ∧
    (finalizeZeroRows w1 b1).1.pg_loans = w1.pg_loans ∧
    (finalizeZeroRows w1 b1).1.pg_plans = w1.pg_plans ∧
    (finalizeZeroRows w1 b1).1.ch = w1.ch ∧
    (finalizeZeroRows w1 b1).1.batch_errors = w1.batch_errors ∧
    (finalizeZeroRows w1 b1).1.findBatch b1.id =
      some { b1 with
        status := "SUCCESS",
        completed_at := some w1.clock,
        record_count := 0,
        valid_rows := 0,
        invalid_rows := 0 } ∧
    (finalizeZeroRows w1 b1).1.trace = w1.trace ++
      [Ev.statusWrite b1.id "SUCCESS", Ev.completedWrite b1.id w1.clock] := by
  refine ⟨rfl, rfl, rfl, rfl, rfl, ?_, by simp [finalizeZeroRows]⟩
  simp only [finalizeZeroRows, findBatch_emit]
  exact findBatch_saveBatch_self _ _ hmem

/-- run_body on a zero-row source short-circuits to finalizeZeroRows,
leaving every store as it was. -/
theorem run_body_zero (w1 : World) (b : BatchRec) (lt dt : String)
    (hmem : ∃ x ∈ w1.batches, x.id = b.id)
    (hrows : get_source_queryset w1 (pyUpper b.tenant) lt dt = []) :
    ∃ W B, run_body w1 b lt dt = .ok (finalizeZeroRows W B) ∧
      B.id = b.id ∧ W.pg_loans = w1.pg_loans ∧ W.pg_plans = w1.pg_plans ∧
      W.ch = w1.ch ∧ W.batch_errors = w1.batch_errors ∧
      W.trace = w1.trace ∧ (∃ x ∈ W.batches, x.id = b.id) := by
  simp only [run_body]
  rw [hrows]
  rw [if_pos (by simp)]
  refine ⟨_, _, rfl, rfl, ?_, ?_, ?_, ?_, ?_, ?_⟩
  · simp
  · simp
  · simp
  · simp
  · simp
  · exact mem_id_saveBatch _ _ _ hmem

/-- C8: a run over a zero-row source transitions the fresh batch
STARTED, PROCESSING, SUCCESS with record_count 0 and zero counts, returns
true, and never touches the analytical store (nor the relational one):
validation and publish are skipped entirely. -/
theorem c8_zero_row_success (w0 : World)
    (tenant_id loan_type dataset_type : String) (tid lt dt : String)
    (w1 : World) (b : BatchRec)
    (hni : normalize_inputs tenant_id loan_type dataset_type =
      .ok (tid, lt, dt))
    (hib : init_batch w0 tid lt none = .ok (w1, b))
    (hrows : get_source_queryset w1 (pyUpper b.tenant) lt dt = []) :
    ∃ w2 b2, run_ingestion w0 tenant_id loan_type dataset_type none =
        .ok (w2, true) ∧
      w2.ch = w0.ch ∧ w2.pg_loans = w0.pg_loans ∧
      w2.pg_plans = w0.pg_plans ∧
      w2.findBatch b.id = some b2 ∧ b2.status = "SUCCESS" ∧
      b2.record_count = 0 ∧ b2.valid_rows = 0 ∧ b2.invalid_rows = 0 ∧
      ∃ t, w2.trace = w0.trace ++
        [Ev.statusWrite b.id "STARTED", Ev.statusWrite b.id "PROCESSING",
          Ev.statusWrite b.id "SUCCESS", Ev.completedWrite b.id t] := by
  obtain ⟨s1, s2, s3, -, -, -, -, hfb⟩ :=
    init_batch_state w0 tid lt none w1 b hib
  have htr1 := init_batch_none_trace w0 tid lt w1 b hib
  have hmem : ∃ x ∈ w1.batches, x.id = b.id :=
    ⟨b, List.mem_of_find?_eq_some hfb, rfl⟩
  obtain ⟨W, B, hrun, hBid, q1, q2, q3, -, qtr, hWmem⟩ :=
    run_body_zero w1 b lt dt hmem hrows
  obtain ⟨hres, p1, p2, p3, -, hfb2, ptr⟩ :=
    finalizeZeroRows_spec W B (by rw [hBid]; exact hWmem)
  rw [hBid] at hfb2 ptr
  refine ⟨(finalizeZeroRows W B).1, _, ?_, (p3.trans q3).trans s3,
    (p1.trans q1).trans s1, (p2.trans q2).trans s2, hfb2, rfl, rfl, rfl, rfl,
    ⟨W.clock, ?_⟩⟩
  · unfold run_ingestion
    simp only [hni, hib, hrun]
    have : (finalizeZeroRows W B).2 = true := hres
    rw [show (finalizeZeroRows W B) = ((finalizeZeroRows W B).1,
      (finalizeZeroRows W B).2) from rfl, hres]
  · rw [ptr, qtr, htr1]
    simp

/-- handle_validation_failure appends exactly the FAILED_VALIDATION status
write and one completed_at write. -/
theorem handle_validation_failure_trace (w : World) (b : BatchRec)
    (invalid : Nat) (errs : List BatchErrorRec) :
    (handle_validation_failure w b invalid errs).1.trace = w.trace ++
      [Ev.statusWrite b.id "FAILED_VALIDATION",
        Ev.completedWrite b.id w.clock] := by
  simp [handle_validation_failure]

/-- finalize_batch_success appends exactly the SUCCESS status write and
one completed_at write. -/
theorem finalize_batch_success_trace (w : World) (b : BatchRec) (n : Nat) :
    (finalize_batch_success w b n).1.trace = w.trace ++
      [Ev.statusWrite b.id "SUCCESS", Ev.completedWrite b.id w.clock] := by
  simp [finalize_batch_success]

/-- finalizeZeroRows appends exactly the SUCCESS status write and one
completed_at write. -/
theorem finalizeZeroRows_trace (w : World) (b : BatchRec) :
    (finalizeZeroRows w b).1.trace = w.trace ++
      [Ev.statusWrite b.id "SUCCESS", Ev.completedWrite b.id w.clock] := by
  simp [finalizeZeroRows]


/-- load_chunked writes no batch fields: the ghost trace and the clock are
unchanged. -/
theorem load_chunked_frame (w : World) (rows : List (List (String × Value)))
    (schema : List FieldSpec) (dt : String) (ids : Option (List String))
    (tenant lt bid : String) (ctx : ChCtx) (w4 : World) (n : Nat)
    (hok : load_chunked w rows schema dt ids tenant lt bid ctx = .ok (w4, n)) :
    w4.trace = w.trace ∧ w4.clock = w.clock := by
  unfold load_chunked at hok
  cases hlr : loadRows schema dt ids tenant lt bid ctx.cols rows with
  | error e =>
      rw [hlr] at hok
      simp at hok
  | ok q =>
      obtain ⟨n2, loans, plans, chrows⟩ := q
      rw [hlr] at hok
      simp only [Except.ok.injEq, Prod.mk.injEq] at hok
      obtain ⟨hw, -⟩ := hok
      rw [← hw]
      constructor <;> (split <;> rfl)

/-- findBatch followed by getD with a default carrying the looked-up id
always yields a record with that id. -/
theorem findBatch_getD_id (w : World) (i : String) (d : BatchRec)
    (hd : d.id = i) : ((w.findBatch i).getD d).id = i := by
  cases hf : w.findBatch i with
  | none => simpa using hd
  | some x =>
      have := List.find?_some hf
      simpa using this

/-- run_body ends in exactly one terminal batch write: on a normal return
the trace gains one terminal status write (SUCCESS or FAILED_VALIDATION)
and one completed_at write for this batch at the current clock; on a raise
the trace is untouched (the FAILED write belongs to the caller's
handler). -/
theorem run_body_cases (w1 : World) (b : BatchRec) (lt dt : String) :
    (∀ w2 ok, run_body w1 b lt dt = .ok (w2, ok) →
      ∃ term, (term = "SUCCESS" ∨ term = "FAILED_VALIDATION") ∧
        w2.trace = w1.trace ++
          [Ev.statusWrite b.id term, Ev.completedWrite b.id w1.clock]) ∧
    (∀ e w2, run_body w1 b lt dt = .error (e, w2) →
      w2.trace = w1.trace) := by
  constructor
  · intro w2 ok heq
    simp only [run_body] at heq
    split at heq
    · simp only [Except.ok.injEq] at heq
      refine ⟨"SUCCESS", Or.inl rfl, ?_⟩
      rw [← show (finalizeZeroRows _ _).1 = w2 from congrArg Prod.fst heq]
      rw [finalizeZeroRows_trace]
      simp
    · split at heq
      · simp at heq
      · split at heq
        · simp at heq
        · split at heq
          · simp only [Except.ok.injEq] at heq
            refine ⟨"FAILED_VALIDATION", Or.inr rfl, ?_⟩
            rw [← show (handle_validation_failure _ _ _ _).1 = w2 from
              congrArg Prod.fst heq]
            rw [handle_validation_failure_trace]
            simp
          · split at heq
            · simp at heq
            · split at heq
              · simp at heq
              · next w4 rc hlc =>
                  simp only [Except.ok.injEq] at heq
                  refine ⟨"SUCCESS", Or.inl rfl, ?_⟩
                  rw [← show (finalize_batch_success _ _ _).1 = w2 from
                    congrArg Prod.fst heq]
                  rw [finalize_batch_success_trace]
                  obtain ⟨htr, hck⟩ := load_chunked_frame _ _ _ _ _ _ _ _ _
                    _ _ hlc
                  simp only [htr, hck]
                  simp [htr, hck]
  · intro e w2 heq
    simp only [run_body] at heq
    split at heq
    · simp at heq
    · split at heq
      · simp only [Except.error.injEq, Prod.mk.injEq] at heq
        rw [← heq.2]
        simp
      · split at heq
        · simp only [Except.error.injEq, Prod.mk.injEq] at heq
          rw [← heq.2]
          simp
        · split at heq
          · simp at heq
          · split at heq
            · simp only [Except.error.injEq, Prod.mk.injEq] at heq
              rw [← heq.2]
              simp
            · split at heq
              · simp only [Except.error.injEq, Prod.mk.injEq] at heq
                rw [← heq.2]
                simp
              · simp at heq

/-- c1world is a world with one CREDIT source row whose
original_loan_amount is out of range, so the dry pass finds one invalid
row. -/
def c1world : World :=
  { clients := [⟨"BANK001"⟩], batches := [], batch_errors := [],
    pg_loans := [], pg_plans := [], ch := ⟨[], []⟩,
    source_loans := [⟨"BANK001", "RETAIL", "L1",
      [("loan_account_number", .str "L1"),
       ("original_loan_amount", .str "-10")]⟩],
    source_plans := [], idSupply := ["c1ba-1"], clock := 0, trace := [] }

/-- c1start extracts the world and batch produced by init_batch on
c1world. -/
def c1start : World × BatchRec :=
  match init_batch c1world "BANK001" "RETAIL" none with
  | .ok p => p
  | .error _ => (c1world, ⟨"", "", "", none, 0, 0, 0, 0, none, none, none⟩)

/-- c1dry extracts the dry-pass counts and errors for c1world. -/
def c1dry : Nat × Nat × List BatchErrorRec :=
  match validate_all_rows
      (get_source_queryset c1start.1 (pyUpper c1start.2.tenant) "RETAIL"
        "CREDIT") CREDIT_FIELDS "CREDIT"
      (get_credit_id_set c1start.1 (pyUpper c1start.2.tenant) "RETAIL"
        "CREDIT") c1start.2.id with
  | .ok t => t
  | .error _ => (0, 0, [])

/-- C1 witness: the frame theorem at the concrete one-invalid-row world. -/
theorem c1_witness :
    ∃ w2 b2, run_ingestion c1world "BANK001" "RETAIL" "CREDIT" none =
        .ok (w2, false) ∧
      w2.pg_loans = c1world.pg_loans ∧ w2.pg_plans = c1world.pg_plans ∧
      w2.ch = c1world.ch ∧
      w2.findBatch c1start.2.id = some b2 ∧
      b2.status = "FAILED_VALIDATION" ∧
      b2.invalid_rows = ((c1dry.2.1 : Nat) : Int) :=
  c1_validation_failure_frame c1world "BANK001" "RETAIL" "CREDIT" none
    "BANK001" "RETAIL" "CREDIT" c1start.1 c1start.2 CREDIT_FIELDS
    c1dry.1 c1dry.2.1 c1dry.2.2 (by decide) (by decide) (by decide)
    (by decide) (by decide)

/-- c8world is a world whose source holds no rows for the tenant. -/
def c8world : World :=
  { clients := [⟨"BANK001"⟩], batches := [], batch_errors := [],
    pg_loans := [], pg_plans := [], ch := ⟨[], []⟩, source_loans := [],
    source_plans := [], idSupply := ["c8ba-1"], clock := 0, trace := [] }

/-- c8start extracts the world and batch produced by init_batch on
c8world. -/
def c8start : World × BatchRec :=
  match init_batch c8world "BANK001" "RETAIL" none with
  | .ok p => p
  | .error _ => (c8world, ⟨"", "", "", none, 0, 0, 0, 0, none, none, none⟩)

/-- C8 witness: the zero-row theorem at the concrete empty-source world. -/
theorem c8_witness :
    ∃ w2 b2, run_ingestion c8world "BANK001" "RETAIL" "CREDIT" none =
        .ok (w2, true) ∧
      w2.ch = c8world.ch ∧ w2.pg_loans = c8world.pg_loans ∧
      w2.pg_plans = c8world.pg_plans ∧
      w2.findBatch c8start.2.id = some b2 ∧ b2.status = "SUCCESS" ∧
      b2.record_count = 0 ∧ b2.valid_rows = 0 ∧ b2.invalid_rows = 0 ∧
      ∃ t, w2.trace = c8world.trace ++
        [Ev.statusWrite c8start.2.id "STARTED",
          Ev.statusWrite c8start.2.id "PROCESSING",
          Ev.statusWrite c8start.2.id "SUCCESS",
          Ev.completedWrite c8start.2.id t] :=
  c8_zero_row_success c8world "BANK001" "RETAIL" "CREDIT"
    "BANK001" "RETAIL" "CREDIT" c8start.1 c8start.2 (by decide) (by decide)
    (by decide)

/-- c5world is a world holding a terminal batch: batch "b1" already ended
SUCCESS with completed_at stamped, while the source now holds one invalid
CREDIT row. -/
def c5world : World :=
  { clients := [⟨"BANK001"⟩],
    batches := [⟨"b1", "BANK001", "SUCCESS", some "RETAIL", 1, 1, 1, 0,
      some 1, some 2, none⟩],
    batch_errors := [], pg_loans := [], pg_plans := [], ch := ⟨[], []⟩,
    source_loans := [⟨"BANK001", "RETAIL", "L1",
      [("loan_account_number", .str "L1"),
       ("original_loan_amount", .str "-10")]⟩],
    source_plans := [], idSupply := [], clock := 10, trace := [] }

/-- C5 counterexample: batch "b1" is already terminal (SUCCESS, with
completed_at stamped at tick 2), yet re-invoking run_ingestion with its id
mutates it again: init_batch unconditionally re-enters PROCESSING, the run
ends FAILED_VALIDATION, and completed_at is overwritten (now tick 10), as
the trace's fresh PROCESSING status write and second completed_at write
show. -/
theorem c5_counterexample :
    (c5world.findBatch "b1").map (fun x => (x.status, x.completed_at)) =
      some ("SUCCESS", some 2) ∧
    (run_ingestion c5world "BANK001" "RETAIL" "CREDIT" (some "b1")).map
        (fun r => (r.2, (r.1.findBatch "b1").map
          (fun x => (x.status, x.completed_at)), r.1.trace)) =
      .ok (false, some ("FAILED_VALIDATION", some 10),
        [Ev.statusWrite "b1" "PROCESSING",
          Ev.statusWrite "b1" "FAILED_VALIDATION",
          Ev.completedWrite "b1" 10]) := by
  refine ⟨by decide, by decide⟩

/-- C5 amended: on a fresh batch (no batch id supplied) the status does
move forward STARTED, PROCESSING, then exactly one terminal write — a
normal return writes SUCCESS or FAILED_VALIDATION and completed_at exactly
once, and a raise either leaves the batch untouched (failures before the
batch exists) or writes FAILED and completed_at exactly once. The terminal
states are not immutable, however: re-invoking a run with a terminal
batch's id re-enters PROCESSING and overwrites the terminal status and
completed_at (see the counterexample), because init_batch sets PROCESSING
unconditionally. -/
theorem c5_fresh_run_trace (w0 : World)
    (tenant_id loan_type dataset_type : String) :
    (∀ w2 ok, run_ingestion w0 tenant_id loan_type dataset_type none =
        .ok (w2, ok) →
      ∃ bid t term, (term = "SUCCESS" ∨ term = "FAILED_VALIDATION") ∧
        w2.trace = w0.trace ++ [Ev.statusWrite bid "STARTED",
          Ev.statusWrite bid "PROCESSING", Ev.statusWrite bid term,
          Ev.completedWrite bid t]) ∧
    (∀ e w2, run_ingestion w0 tenant_id loan_type dataset_type none =
        .error (e, w2) →
      w2.trace = w0.trace ∨ ∃ bid t, w2.trace = w0.trace ++
        [Ev.statusWrite bid "STARTED", Ev.statusWrite bid "PROCESSING",
          Ev.statusWrite bid "FAILED", Ev.completedWrite bid t]) := by
  constructor
  · intro w2 ok heq
    unfold run_ingestion at heq
    cases hni : normalize_inputs tenant_id loan_type dataset_type with
    | error e' =>
        rw [hni] at heq
        simp at heq
    | ok p =>
        obtain ⟨tid, lt, dt⟩ := p
        simp only [hni] at heq
        cases hib : init_batch w0 tid lt none with
        | error e' =>
            simp [hib] at heq
        | ok q =>
            obtain ⟨w1, bb⟩ := q
            simp only [hib] at heq
            have htr1 := init_batch_none_trace w0 tid lt w1 bb hib
            cases hrb : run_body w1 bb lt dt with
            | ok r =>
                obtain ⟨w2x, okx⟩ := r
                simp only [hrb, Except.ok.injEq, Prod.mk.injEq] at heq
                obtain ⟨term, hterm, htr⟩ :=
                  (run_body_cases w1 bb lt dt).1 w2x okx hrb
                refine ⟨bb.id, w1.clock, term, hterm, ?_⟩
                rw [← heq.1, htr, htr1]
                simp
            | error pe =>
                obtain ⟨e', wE⟩ := pe
                simp [hrb] at heq
  · intro e w2 heq
    unfold run_ingestion at heq
    cases hni : normalize_inputs tenant_id loan_type dataset_type with
    | error e' =>
        rw [hni] at heq
        simp only [Except.error.injEq, Prod.mk.injEq] at heq
        exact Or.inl (by rw [← heq.2])
    | ok p =>
        obtain ⟨tid, lt, dt⟩ := p
        simp only [hni] at heq
        cases hib : init_batch w0 tid lt none with
        | error e' =>
            simp only [hib, Except.error.injEq, Prod.mk.injEq] at heq
            exact Or.inl (by rw [← heq.2])
        | ok q =>
            obtain ⟨w1, bb⟩ := q
            simp only [hib] at heq
            have htr1 := init_batch_none_trace w0 tid lt w1 bb hib
            cases hrb : run_body w1 bb lt dt with
            | ok r =>
                obtain ⟨w2x, okx⟩ := r
                simp [hrb] at heq
            | error pe =>
                obtain ⟨e', wE⟩ := pe
                simp only [hrb, Except.error.injEq, Prod.mk.injEq] at heq
                obtain ⟨-, hw⟩ := heq
                right
                have htrE := (run_body_cases w1 bb lt dt).2 e' wE hrb
                have hid : ((wE.findBatch bb.id).getD bb).id = bb.id :=
                  findBatch_getD_id wE bb.id bb rfl
                refine ⟨bb.id, wE.clock, ?_⟩
                rw [← hw]
                simp [htrE, htr1, hid]

/-- c5runWorld is a fresh world for exercising a complete run without a
pre-supplied batch id. -/
def c5runWorld : World :=
  { clients := [⟨"BANK001"⟩], batches := [], batch_errors := [],
    pg_loans := [], pg_plans := [], ch := ⟨[], []⟩, source_loans := [],
    source_plans := [], idSupply := ["c5ba-1"], clock := 0, trace := [] }

/-- c5run extracts the result of the fresh run on c5runWorld. -/
def c5run : World × Bool :=
  match run_ingestion c5runWorld "BANK001" "RETAIL" "CREDIT" none with
  | .ok p => p
  | .error _ => (c5runWorld, false)

/-- C5 witness: the fresh-run trace shape at a concrete world. -/
theorem c5_witness :
    ∃ bid t term, (term = "SUCCESS" ∨ term = "FAILED_VALIDATION") ∧
      c5run.1.trace = c5runWorld.trace ++ [Ev.statusWrite bid "STARTED",
        Ev.statusWrite bid "PROCESSING", Ev.statusWrite bid term,
        Ev.completedWrite bid t] :=
  (c5_fresh_run_trace c5runWorld "BANK001" "RETAIL" "CREDIT").1
    c5run.1 c5run.2 (by decide)

end FDA
